import Mathlib

/-!
Verification of the Renpho Health session/crypto core
(`custom_components/renpho_health`).

The development is layered the way the code is:

* GF(2^8) arithmetic and the AES-128 block cipher (the cipher invoked by
  `RenphoApi._aes_encrypt` / `_aes_decrypt` through `Crypto.Cipher.AES`,
  modelled from FIPS-197);
* PKCS#7 padding, base64, and UTF-8 codecs (from `Crypto.Util.Padding`,
  `base64`, and `str.encode`, the library routines the source calls);
* the response post-processing of `RenphoApi._api_call` (api.py);
* the session state machine: `_login`, `set_cached_token`, `get_token_data`,
  `get_measurements` (api.py), with the network abstracted as an oracle of
  outcomes consumed one per HTTP call;
* the host glue that seeds a session from the persisted token document
  (`async_setup_entry` in `__init__.py`).

Machine bytes are `Nat` kept below 256; Python `None` is `Option.none`;
Python exceptions are `Except`/`Option` results.
-/

set_option maxRecDepth 8192

/-! ### GF(2^8) arithmetic (AES field, modulus 0x11B) -/

/-- Multiplication by x in GF(2^8) with the AES reduction polynomial 0x11B. -/
def xtime (b : Nat) : Nat :=
  if b.testBit 7 then ((b <<< 1) &&& 255) ^^^ 0x1B else (b <<< 1) &&& 255

/-- Sum (xor) of the xtime-iterates of `b` selected by those bits of `c`
listed in `l`. -/
def gmulBits : List Nat → Nat → Nat → Nat
  | [], _, _ => 0
  | i :: is, c, b => (if c.testBit i then xtime^[i] b else 0) ^^^ gmulBits is c b

/-- GF(2^8) multiplication of a byte `b` by a constant `c`. -/
def gmul (c b : Nat) : Nat := gmulBits [0, 1, 2, 3, 4, 5, 6, 7] c b

theorem xtime_lt (b : Nat) : xtime b < 256 := by
  unfold xtime
  have h1 : (b <<< 1) &&& 255 ≤ 255 := Nat.and_le_right
  have h2 : (b <<< 1) &&& 255 < 2 ^ 8 := by omega
  split
  · have h3 : ((b <<< 1) &&& 255) ^^^ 27 < 2 ^ 8 := Nat.xor_lt_two_pow h2 (by norm_num)
    omega
  · omega

theorem iterate_xtime_lt (i b : Nat) (hb : b < 256) : xtime^[i] b < 256 := by
  induction i generalizing b with
  | zero => simpa using hb
  | succ i ih =>
    rw [Function.iterate_succ_apply]
    exact ih _ (xtime_lt b)

theorem gmulBits_lt (l : List Nat) (c b : Nat) (hb : b < 256) :
    gmulBits l c b < 256 := by
  induction l with
  | nil => simp [gmulBits]
  | cons i is ih =>
    unfold gmulBits
    have ht : (if c.testBit i then xtime^[i] b else 0) < 2 ^ 8 := by
      split
      · have := iterate_xtime_lt i b hb
        omega
      · norm_num
    have hr : gmulBits is c b < 2 ^ 8 := by omega
    have := Nat.xor_lt_two_pow ht hr
    omega

theorem gmul_lt (c b : Nat) (hb : b < 256) : gmul c b < 256 :=
  gmulBits_lt _ c b hb

theorem shiftLeft_xor_distrib (x y i : Nat) :
    (x ^^^ y) <<< i = (x <<< i) ^^^ (y <<< i) := by
  apply Nat.eq_of_testBit_eq
  intro j
  simp [Nat.testBit_shiftLeft, Nat.testBit_xor, Bool.and_xor_distrib_left]

theorem xor_xor_cancel_left (a b : Nat) : a ^^^ (a ^^^ b) = b := by
  rw [← Nat.xor_assoc, Nat.xor_self, Nat.zero_xor]

theorem xor_left_comm (a b c : Nat) : a ^^^ (b ^^^ c) = b ^^^ (a ^^^ c) := by
  rw [← Nat.xor_assoc, ← Nat.xor_assoc, Nat.xor_comm a b]

theorem xtime_xor (x y : Nat) : xtime (x ^^^ y) = xtime x ^^^ xtime y := by
  unfold xtime
  simp only [shiftLeft_xor_distrib, Nat.and_xor_distrib_right, Nat.testBit_xor]
  cases hx : x.testBit 7 <;> cases hy : y.testBit 7 <;>
    simp [Nat.xor_assoc, Nat.xor_comm, xor_left_comm, xor_xor_cancel_left]

theorem iterate_xtime_xor (i x y : Nat) :
    xtime^[i] (x ^^^ y) = xtime^[i] x ^^^ xtime^[i] y := by
  induction i generalizing x y with
  | zero => simp
  | succ i ih =>
    simp only [Function.iterate_succ_apply]
    rw [xtime_xor, ih]

theorem xor_xor_xor_comm (a b c d : Nat) :
    (a ^^^ b) ^^^ (c ^^^ d) = (a ^^^ c) ^^^ (b ^^^ d) := by
  rw [Nat.xor_assoc, Nat.xor_assoc]
  congr 1
  rw [← Nat.xor_assoc, ← Nat.xor_assoc, Nat.xor_comm b c]

theorem gmulBits_xor (l : List Nat) (c x y : Nat) :
    gmulBits l c (x ^^^ y) = gmulBits l c x ^^^ gmulBits l c y := by
  induction l with
  | nil => simp [gmulBits]
  | cons i is ih =>
    unfold gmulBits
    rw [ih]
    cases h : c.testBit i <;> simp [iterate_xtime_xor, xor_xor_xor_comm]

/-- GF(2^8) multiplication by a constant distributes over xor. -/
theorem gmul_xor (c x y : Nat) : gmul c (x ^^^ y) = gmul c x ^^^ gmul c y :=
  gmulBits_xor _ c x y

/-- Row 0 of InvMixColumns times column 0 of MixColumns is the identity
(entry (0,0) of the product of the two AES column matrices). -/
theorem mixCoeff_id : ∀ x < 256,
    gmul 14 (gmul 2 x) ^^^ (gmul 11 x ^^^ (gmul 13 x ^^^ gmul 9 (gmul 3 x))) = x := by
  decide

/-- Entry (0,1) of the product of the InvMixColumns and MixColumns matrices
is zero. -/
theorem mixCoeff_zero1 : ∀ x < 256,
    gmul 14 (gmul 3 x) ^^^ (gmul 11 (gmul 2 x) ^^^ (gmul 13 x ^^^ gmul 9 x)) = 0 := by
  decide

/-- Entry (0,2) of the product of the InvMixColumns and MixColumns matrices
is zero. -/
theorem mixCoeff_zero2 : ∀ x < 256,
    gmul 14 x ^^^ (gmul 11 (gmul 3 x) ^^^ (gmul 13 (gmul 2 x) ^^^ gmul 9 x)) = 0 := by
  decide

/-- Entry (0,3) of the product of the InvMixColumns and MixColumns matrices
is zero. -/
theorem mixCoeff_zero3 : ∀ x < 256,
    gmul 14 x ^^^ (gmul 11 x ^^^ (gmul 13 (gmul 3 x) ^^^ gmul 9 (gmul 2 x))) = 0 := by
  decide

/-! ### The AES S-box (FIPS-197 section 5.1.1) and its inverse -/

/-- The AES S-box lookup table (FIPS-197 figure 7). -/
def sboxTab : List Nat := [
  99, 124, 119, 123, 242, 107, 111, 197, 48, 1, 103, 43, 254, 215, 171, 118,
  202, 130, 201, 125, 250, 89, 71, 240, 173, 212, 162, 175, 156, 164, 114, 192,
  183, 253, 147, 38, 54, 63, 247, 204, 52, 165, 229, 241, 113, 216, 49, 21,
  4, 199, 35, 195, 24, 150, 5, 154, 7, 18, 128, 226, 235, 39, 178, 117,
  9, 131, 44, 26, 27, 110, 90, 160, 82, 59, 214, 179, 41, 227, 47, 132,
  83, 209, 0, 237, 32, 252, 177, 91, 106, 203, 190, 57, 74, 76, 88, 207,
  208, 239, 170, 251, 67, 77, 51, 133, 69, 249, 2, 127, 80, 60, 159, 168,
  81, 163, 64, 143, 146, 157, 56, 245, 188, 182, 218, 33, 16, 255, 243, 210,
  205, 12, 19, 236, 95, 151, 68, 23, 196, 167, 126, 61, 100, 93, 25, 115,
  96, 129, 79, 220, 34, 42, 144, 136, 70, 238, 184, 20, 222, 94, 11, 219,
  224, 50, 58, 10, 73, 6, 36, 92, 194, 211, 172, 98, 145, 149, 228, 121,
  231, 200, 55, 109, 141, 213, 78, 169, 108, 86, 244, 234, 101, 122, 174, 8,
  186, 120, 37, 46, 28, 166, 180, 198, 232, 221, 116, 31, 75, 189, 139, 138,
  112, 62, 181, 102, 72, 3, 246, 14, 97, 53, 87, 185, 134, 193, 29, 158,
  225, 248, 152, 17, 105, 217, 142, 148, 155, 30, 135, 233, 206, 85, 40, 223,
  140, 161, 137, 13, 191, 230, 66, 104, 65, 153, 45, 15, 176, 84, 187, 22
]

/-- The inverse AES S-box lookup table (FIPS-197 figure 14). -/
def invSboxTab : List Nat := [
  82, 9, 106, 213, 48, 54, 165, 56, 191, 64, 163, 158, 129, 243, 215, 251,
  124, 227, 57, 130, 155, 47, 255, 135, 52, 142, 67, 68, 196, 222, 233, 203,
  84, 123, 148, 50, 166, 194, 35, 61, 238, 76, 149, 11, 66, 250, 195, 78,
  8, 46, 161, 102, 40, 217, 36, 178, 118, 91, 162, 73, 109, 139, 209, 37,
  114, 248, 246, 100, 134, 104, 152, 22, 212, 164, 92, 204, 93, 101, 182, 146,
  108, 112, 72, 80, 253, 237, 185, 218, 94, 21, 70, 87, 167, 141, 157, 132,
  144, 216, 171, 0, 140, 188, 211, 10, 247, 228, 88, 5, 184, 179, 69, 6,
  208, 44, 30, 143, 202, 63, 15, 2, 193, 175, 189, 3, 1, 19, 138, 107,
  58, 145, 17, 65, 79, 103, 220, 234, 151, 242, 207, 206, 240, 180, 230, 115,
  150, 172, 116, 34, 231, 173, 53, 133, 226, 249, 55, 232, 28, 117, 223, 110,
  71, 241, 26, 113, 29, 41, 197, 137, 111, 183, 98, 14, 170, 24, 190, 27,
  252, 86, 62, 75, 198, 210, 121, 32, 154, 219, 192, 254, 120, 205, 90, 244,
  31, 221, 168, 51, 136, 7, 199, 49, 177, 18, 16, 89, 39, 128, 236, 95,
  96, 81, 127, 169, 25, 181, 74, 13, 45, 229, 122, 159, 147, 201, 156, 239,
  160, 224, 59, 77, 174, 42, 245, 176, 200, 235, 187, 60, 131, 83, 153, 97,
  23, 43, 4, 126, 186, 119, 214, 38, 225, 105, 20, 99, 85, 33, 12, 125
]

/-- The AES S-box as a function on bytes. -/
def sbox (b : Nat) : Nat := sboxTab.getD b 0

/-- The inverse AES S-box as a function on bytes. -/
def invSbox (b : Nat) : Nat := invSboxTab.getD b 0

theorem invSbox_sbox : ∀ b < 256, invSbox (sbox b) = b := by decide

theorem sbox_lt : ∀ b < 256, sbox b < 256 := by decide

/-! ### AES-128 block cipher (FIPS-197), state as a column-major list of
16 bytes -/

theorem byte_xor_lt (x y : Nat) (hx : x < 256) (hy : y < 256) : x ^^^ y < 256 := by
  have h1 : x < 2 ^ 8 := by omega
  have h2 : y < 2 ^ 8 := by omega
  have := Nat.xor_lt_two_pow h1 h2
  omega

theorem list16_explode (s : List Nat) (h : s.length = 16) :
    ∃ a0 a1 a2 a3 a4 a5 a6 a7 a8 a9 a10 a11 a12 a13 a14 a15,
      s = [a0, a1, a2, a3, a4, a5, a6, a7, a8, a9, a10, a11, a12, a13, a14, a15] := by
  rcases s with _ | ⟨a0, s⟩
  · simp at h
  rcases s with _ | ⟨a1, s⟩
  · simp at h
  rcases s with _ | ⟨a2, s⟩
  · simp at h
  rcases s with _ | ⟨a3, s⟩
  · simp at h
  rcases s with _ | ⟨a4, s⟩
  · simp at h
  rcases s with _ | ⟨a5, s⟩
  · simp at h
  rcases s with _ | ⟨a6, s⟩
  · simp at h
  rcases s with _ | ⟨a7, s⟩
  · simp at h
  rcases s with _ | ⟨a8, s⟩
  · simp at h
  rcases s with _ | ⟨a9, s⟩
  · simp at h
  rcases s with _ | ⟨a10, s⟩
  · simp at h
  rcases s with _ | ⟨a11, s⟩
  · simp at h
  rcases s with _ | ⟨a12, s⟩
  · simp at h
  rcases s with _ | ⟨a13, s⟩
  · simp at h
  rcases s with _ | ⟨a14, s⟩
  · simp at h
  rcases s with _ | ⟨a15, s⟩
  · simp at h
  rcases s with _ | ⟨x, s⟩
  · exact ⟨a0, a1, a2, a3, a4, a5, a6, a7, a8, a9, a10, a11, a12, a13, a14, a15, rfl⟩
  · simp at h

/-- SubBytes: the S-box applied to every state byte. -/
def subBytes (s : List Nat) : List Nat := s.map sbox

/-- InvSubBytes. -/
def invSubBytes (s : List Nat) : List Nat := s.map invSbox

/-- ShiftRows on the column-major state: row r is rotated left by r. -/
def shiftRows : List Nat → List Nat
  | [s0, s1, s2, s3, s4, s5, s6, s7, s8, s9, s10, s11, s12, s13, s14, s15] =>
    [s0, s5, s10, s15, s4, s9, s14, s3, s8, s13, s2, s7, s12, s1, s6, s11]
  | s => s

/-- InvShiftRows: row r is rotated right by r. -/
def invShiftRows : List Nat → List Nat
  | [s0, s1, s2, s3, s4, s5, s6, s7, s8, s9, s10, s11, s12, s13, s14, s15] =>
    [s0, s13, s10, s7, s4, s1, s14, s11, s8, s5, s2, s15, s12, s9, s6, s3]
  | s => s

/-- MixColumns on one column (the circulant matrix (2,3,1,1)). -/
def mixCol (a0 a1 a2 a3 : Nat) : List Nat :=
  [gmul 2 a0 ^^^ (gmul 3 a1 ^^^ (a2 ^^^ a3)),
   a0 ^^^ (gmul 2 a1 ^^^ (gmul 3 a2 ^^^ a3)),
   a0 ^^^ (a1 ^^^ (gmul 2 a2 ^^^ gmul 3 a3)),
   gmul 3 a0 ^^^ (a1 ^^^ (a2 ^^^ gmul 2 a3))]

/-- InvMixColumns on one column (the circulant matrix (14,11,13,9)). -/
def invMixCol (b0 b1 b2 b3 : Nat) : List Nat :=
  [gmul 14 b0 ^^^ (gmul 11 b1 ^^^ (gmul 13 b2 ^^^ gmul 9 b3)),
   gmul 9 b0 ^^^ (gmul 14 b1 ^^^ (gmul 11 b2 ^^^ gmul 13 b3)),
   gmul 13 b0 ^^^ (gmul 9 b1 ^^^ (gmul 14 b2 ^^^ gmul 11 b3)),
   gmul 11 b0 ^^^ (gmul 13 b1 ^^^ (gmul 9 b2 ^^^ gmul 14 b3))]

/-- MixColumns on the full state. -/
def mixColumns : List Nat → List Nat
  | [a0, a1, a2, a3, a4, a5, a6, a7, a8, a9, a10, a11, a12, a13, a14, a15] =>
    mixCol a0 a1 a2 a3 ++ (mixCol a4 a5 a6 a7 ++
      (mixCol a8 a9 a10 a11 ++ mixCol a12 a13 a14 a15))
  | s => s

/-- InvMixColumns on the full state. -/
def invMixColumns : List Nat → List Nat
  | [b0, b1, b2, b3, b4, b5, b6, b7, b8, b9, b10, b11, b12, b13, b14, b15] =>
    invMixCol b0 b1 b2 b3 ++ (invMixCol b4 b5 b6 b7 ++
      (invMixCol b8 b9 b10 b11 ++ invMixCol b12 b13 b14 b15))
  | s => s

/-- AddRoundKey: xor the state with a round key. -/
def addRoundKey (k s : List Nat) : List Nat :=
  List.zipWith (fun a b => a ^^^ b) s k

/-- Round-constant bytes for the AES key schedule. -/
def rconTab : List Nat := [1, 2, 4, 8, 16, 32, 64, 128, 27, 54]

/-- RotWord of the key schedule, on a 4-byte word. -/
def rotWordL : List Nat → List Nat
  | [a, b, c, d] => [b, c, d, a]
  | w => w

/-- SubWord of the key schedule. -/
def subWordL (w : List Nat) : List Nat := w.map sbox

/-- Byte-wise xor of two words. -/
def xorWord (a b : List Nat) : List Nat := List.zipWith (fun x y => x ^^^ y) a b

/-- One step of the AES-128 key schedule: extend the word list `ws`
(currently w0..w_{i-1}, i = ws.length) by the word w_i. -/
def keyExpandStep (ws : List (List Nat)) : List (List Nat) :=
  let i := ws.length
  let prev := ws.getD (i - 1) []
  let four := ws.getD (i - 4) []
  let t := if i % 4 == 0 then
    xorWord (subWordL (rotWordL prev)) [rconTab.getD (i / 4 - 1) 0, 0, 0, 0]
  else prev
  ws ++ [xorWord four t]

/-- Iterate the key-schedule step `n` times. -/
def keyExpandFrom : Nat → List (List Nat) → List (List Nat)
  | 0, ws => ws
  | n + 1, ws => keyExpandFrom n (keyExpandStep ws)

/-- The four words of the raw 16-byte key. -/
def initWords (key : List Nat) : List (List Nat) :=
  [key.take 4, (key.drop 4).take 4, (key.drop 8).take 4, (key.drop 12).take 4]

/-- The AES-128 key schedule: 44 words. -/
def keyExpansion (key : List Nat) : List (List Nat) :=
  keyExpandFrom 40 (initWords key)

/-- The 11 round keys (16 bytes each, column-major) of an AES-128 key. -/
def roundKeysOf (key : List Nat) : List (List Nat) :=
  (List.range 11).map (fun r =>
    (keyExpansion key).getD (4 * r) [] ++
      ((keyExpansion key).getD (4 * r + 1) [] ++
        ((keyExpansion key).getD (4 * r + 2) [] ++
          (keyExpansion key).getD (4 * r + 3) [])))

/-- The AES rounds after the initial AddRoundKey: one full round per key
except the last, which skips MixColumns. -/
def encRounds : List (List Nat) → List Nat → List Nat
  | [], s => s
  | [k], s => addRoundKey k (shiftRows (subBytes s))
  | k :: k2 :: ks, s =>
    encRounds (k2 :: ks) (addRoundKey k (mixColumns (shiftRows (subBytes s))))

/-- AES block encryption: initial AddRoundKey, then the rounds. -/
def encryptBlock (rks : List (List Nat)) (b : List Nat) : List Nat :=
  match rks with
  | [] => b
  | k :: ks => encRounds ks (addRoundKey k b)

/-- Inverse of `encRounds`, undoing the rounds in reverse order. -/
def decRounds : List (List Nat) → List Nat → List Nat
  | [], s => s
  | [k], s => invSubBytes (invShiftRows (addRoundKey k s))
  | k :: k2 :: ks, s =>
    invSubBytes (invShiftRows (invMixColumns (addRoundKey k (decRounds (k2 :: ks) s))))

/-- AES block decryption, literally undoing `encryptBlock`. -/
def decryptBlock (rks : List (List Nat)) (b : List Nat) : List Nat :=
  match rks with
  | [] => b
  | k :: ks => addRoundKey k (decRounds ks b)

/-! ### Inverse and preservation lemmas for the AES steps -/

theorem subBytes_length (s : List Nat) : (subBytes s).length = s.length := by
  simp [subBytes]

theorem subBytes_lt (s : List Nat) (hs : ∀ x ∈ s, x < 256) :
    ∀ x ∈ subBytes s, x < 256 := by
  intro x hx
  rcases List.mem_map.mp hx with ⟨y, hy, rfl⟩
  exact sbox_lt y (hs y hy)

theorem invSubBytes_subBytes (s : List Nat) (hs : ∀ x ∈ s, x < 256) :
    invSubBytes (subBytes s) = s := by
  unfold invSubBytes subBytes
  rw [List.map_map]
  have h : ∀ x ∈ s, (invSbox ∘ sbox) x = id x := fun x hx =>
    invSbox_sbox x (hs x hx)
  rw [List.map_congr_left h, List.map_id]

theorem shiftRows_length (s : List Nat) (h : s.length = 16) :
    (shiftRows s).length = 16 := by
  obtain ⟨a0, a1, a2, a3, a4, a5, a6, a7, a8, a9, a10, a11, a12, a13, a14, a15, rfl⟩ :=
    list16_explode s h
  rfl

theorem shiftRows_lt (s : List Nat) (h : s.length = 16) (hs : ∀ x ∈ s, x < 256) :
    ∀ x ∈ shiftRows s, x < 256 := by
  obtain ⟨a0, a1, a2, a3, a4, a5, a6, a7, a8, a9, a10, a11, a12, a13, a14, a15, rfl⟩ :=
    list16_explode s h
  simp [shiftRows] at hs ⊢
  omega

theorem invShiftRows_shiftRows (s : List Nat) (h : s.length = 16) :
    invShiftRows (shiftRows s) = s := by
  obtain ⟨a0, a1, a2, a3, a4, a5, a6, a7, a8, a9, a10, a11, a12, a13, a14, a15, rfl⟩ :=
    list16_explode s h
  rfl

theorem addRoundKey_length (k s : List Nat) :
    (addRoundKey k s).length = min s.length k.length := by
  simp [addRoundKey]

theorem addRoundKey_lt (k s : List Nat) (hk : ∀ x ∈ k, x < 256)
    (hs : ∀ x ∈ s, x < 256) : ∀ x ∈ addRoundKey k s, x < 256 := by
  unfold addRoundKey
  induction s generalizing k with
  | nil => simp
  | cons a s ih =>
    cases k with
    | nil => simp
    | cons b k =>
      intro x hx
      rcases List.mem_cons.mp hx with rfl | hx2
      · exact byte_xor_lt a b (hs a (by simp)) (hk b (by simp))
      · exact ih k (fun y hy => hk y (by simp [hy]))
          (fun y hy => hs y (by simp [hy])) x hx2

theorem addRoundKey_addRoundKey (k s : List Nat) (h : s.length ≤ k.length) :
    addRoundKey k (addRoundKey k s) = s := by
  unfold addRoundKey
  induction s generalizing k with
  | nil => simp
  | cons a s ih =>
    cases k with
    | nil => simp at h
    | cons b k =>
      simp only [List.zipWith_cons_cons, List.cons.injEq]
      constructor
      · rw [Nat.xor_assoc, Nat.xor_self, Nat.xor_zero]
      · exact ih k (by simpa using h)

theorem mixCol_length (a0 a1 a2 a3 : Nat) : (mixCol a0 a1 a2 a3).length = 4 := rfl

theorem mixCol_lt (a0 a1 a2 a3 : Nat) (h0 : a0 < 256) (h1 : a1 < 256)
    (h2 : a2 < 256) (h3 : a3 < 256) : ∀ x ∈ mixCol a0 a1 a2 a3, x < 256 := by
  have g0 := gmul_lt 2 a0 h0
  have g1 := gmul_lt 3 a1 h1
  have g2 := gmul_lt 2 a1 h1
  have g3 := gmul_lt 3 a2 h2
  have g4 := gmul_lt 2 a2 h2
  have g5 := gmul_lt 3 a3 h3
  have g6 := gmul_lt 3 a0 h0
  have g7 := gmul_lt 2 a3 h3
  intro x hx
  simp only [mixCol, List.mem_cons, List.not_mem_nil, or_false] at hx
  rcases hx with rfl | rfl | rfl | rfl
  · exact byte_xor_lt _ _ g0 (byte_xor_lt _ _ g1 (byte_xor_lt _ _ h2 h3))
  · exact byte_xor_lt _ _ h0 (byte_xor_lt _ _ g2 (byte_xor_lt _ _ g3 h3))
  · exact byte_xor_lt _ _ h0 (byte_xor_lt _ _ h1 (byte_xor_lt _ _ g4 g5))
  · exact byte_xor_lt _ _ g6 (byte_xor_lt _ _ h1 (byte_xor_lt _ _ h2 g7))

theorem mixColumns_length (s : List Nat) (h : s.length = 16) :
    (mixColumns s).length = 16 := by
  obtain ⟨a0, a1, a2, a3, a4, a5, a6, a7, a8, a9, a10, a11, a12, a13, a14, a15, rfl⟩ :=
    list16_explode s h
  rfl

theorem mixColumns_lt (s : List Nat) (h : s.length = 16) (hs : ∀ x ∈ s, x < 256) :
    ∀ x ∈ mixColumns s, x < 256 := by
  obtain ⟨a0, a1, a2, a3, a4, a5, a6, a7, a8, a9, a10, a11, a12, a13, a14, a15, rfl⟩ :=
    list16_explode s h
  simp only [List.mem_cons, List.not_mem_nil, or_false, forall_eq_or_imp, forall_eq] at hs
  obtain ⟨h0, h1, h2, h3, h4, h5, h6, h7, h8, h9, h10, h11, h12, h13, h14, h15⟩ := hs
  intro x hx
  simp only [mixColumns, List.mem_append] at hx
  rcases hx with hx | hx | hx | hx
  · exact mixCol_lt a0 a1 a2 a3 h0 h1 h2 h3 x hx
  · exact mixCol_lt a4 a5 a6 a7 h4 h5 h6 h7 x hx
  · exact mixCol_lt a8 a9 a10 a11 h8 h9 h10 h11 x hx
  · exact mixCol_lt a12 a13 a14 a15 h12 h13 h14 h15 x hx

/-- Component 0 of InvMixColumns applied to a MixColumns output column. -/
theorem mixComp0 (a0 a1 a2 a3 : Nat) (h0 : a0 < 256) (h1 : a1 < 256)
    (h2 : a2 < 256) (h3 : a3 < 256) :
    gmul 14 (gmul 2 a0 ^^^ (gmul 3 a1 ^^^ (a2 ^^^ a3))) ^^^
      (gmul 11 (a0 ^^^ (gmul 2 a1 ^^^ (gmul 3 a2 ^^^ a3))) ^^^
        (gmul 13 (a0 ^^^ (a1 ^^^ (gmul 2 a2 ^^^ gmul 3 a3))) ^^^
          gmul 9 (gmul 3 a0 ^^^ (a1 ^^^ (a2 ^^^ gmul 2 a3))))) = a0 := by
  have k0 := mixCoeff_id a0 h0
  have k1 := mixCoeff_zero1 a1 h1
  have k2 := mixCoeff_zero2 a2 h2
  have k3 := mixCoeff_zero3 a3 h3
  calc gmul 14 (gmul 2 a0 ^^^ (gmul 3 a1 ^^^ (a2 ^^^ a3))) ^^^
      (gmul 11 (a0 ^^^ (gmul 2 a1 ^^^ (gmul 3 a2 ^^^ a3))) ^^^
        (gmul 13 (a0 ^^^ (a1 ^^^ (gmul 2 a2 ^^^ gmul 3 a3))) ^^^
          gmul 9 (gmul 3 a0 ^^^ (a1 ^^^ (a2 ^^^ gmul 2 a3)))))
      = (gmul 14 (gmul 2 a0) ^^^ (gmul 11 a0 ^^^ (gmul 13 a0 ^^^ gmul 9 (gmul 3 a0)))) ^^^
        ((gmul 14 (gmul 3 a1) ^^^ (gmul 11 (gmul 2 a1) ^^^ (gmul 13 a1 ^^^ gmul 9 a1))) ^^^
          ((gmul 14 a2 ^^^ (gmul 11 (gmul 3 a2) ^^^ (gmul 13 (gmul 2 a2) ^^^ gmul 9 a2))) ^^^
            (gmul 14 a3 ^^^ (gmul 11 a3 ^^^ (gmul 13 (gmul 3 a3) ^^^ gmul 9 (gmul 2 a3)))))) := by
        simp only [gmul_xor]
        simp only [Nat.xor_assoc, Nat.xor_comm, xor_left_comm]
    _ = a0 ^^^ (0 ^^^ (0 ^^^ 0)) := by rw [k0, k1, k2, k3]
    _ = a0 := by simp

/-- Component 1 of InvMixColumns applied to a MixColumns output column. -/
theorem mixComp1 (a0 a1 a2 a3 : Nat) (h0 : a0 < 256) (h1 : a1 < 256)
    (h2 : a2 < 256) (h3 : a3 < 256) :
    gmul 9 (gmul 2 a0 ^^^ (gmul 3 a1 ^^^ (a2 ^^^ a3))) ^^^
      (gmul 14 (a0 ^^^ (gmul 2 a1 ^^^ (gmul 3 a2 ^^^ a3))) ^^^
        (gmul 11 (a0 ^^^ (a1 ^^^ (gmul 2 a2 ^^^ gmul 3 a3))) ^^^
          gmul 13 (gmul 3 a0 ^^^ (a1 ^^^ (a2 ^^^ gmul 2 a3))))) = a1 := by
  have k0 := mixCoeff_id a1 h1
  have k1 := mixCoeff_zero1 a2 h2
  have k2 := mixCoeff_zero2 a3 h3
  have k3 := mixCoeff_zero3 a0 h0
  calc gmul 9 (gmul 2 a0 ^^^ (gmul 3 a1 ^^^ (a2 ^^^ a3))) ^^^
      (gmul 14 (a0 ^^^ (gmul 2 a1 ^^^ (gmul 3 a2 ^^^ a3))) ^^^
        (gmul 11 (a0 ^^^ (a1 ^^^ (gmul 2 a2 ^^^ gmul 3 a3))) ^^^
          gmul 13 (gmul 3 a0 ^^^ (a1 ^^^ (a2 ^^^ gmul 2 a3)))))
      = (gmul 14 (gmul 2 a1) ^^^ (gmul 11 a1 ^^^ (gmul 13 a1 ^^^ gmul 9 (gmul 3 a1)))) ^^^
        ((gmul 14 (gmul 3 a2) ^^^ (gmul 11 (gmul 2 a2) ^^^ (gmul 13 a2 ^^^ gmul 9 a2))) ^^^
          ((gmul 14 a3 ^^^ (gmul 11 (gmul 3 a3) ^^^ (gmul 13 (gmul 2 a3) ^^^ gmul 9 a3))) ^^^
            (gmul 14 a0 ^^^ (gmul 11 a0 ^^^ (gmul 13 (gmul 3 a0) ^^^ gmul 9 (gmul 2 a0)))))) := by
        simp only [gmul_xor]
        simp only [Nat.xor_assoc, Nat.xor_comm, xor_left_comm]
    _ = a1 ^^^ (0 ^^^ (0 ^^^ 0)) := by rw [k0, k1, k2, k3]
    _ = a1 := by simp

/-- Component 2 of InvMixColumns applied to a MixColumns output column. -/
theorem mixComp2 (a0 a1 a2 a3 : Nat) (h0 : a0 < 256) (h1 : a1 < 256)
    (h2 : a2 < 256) (h3 : a3 < 256) :
    gmul 13 (gmul 2 a0 ^^^ (gmul 3 a1 ^^^ (a2 ^^^ a3))) ^^^
      (gmul 9 (a0 ^^^ (gmul 2 a1 ^^^ (gmul 3 a2 ^^^ a3))) ^^^
        (gmul 14 (a0 ^^^ (a1 ^^^ (gmul 2 a2 ^^^ gmul 3 a3))) ^^^
          gmul 11 (gmul 3 a0 ^^^ (a1 ^^^ (a2 ^^^ gmul 2 a3))))) = a2 := by
  have k0 := mixCoeff_id a2 h2
  have k1 := mixCoeff_zero1 a3 h3
  have k2 := mixCoeff_zero2 a0 h0
  have k3 := mixCoeff_zero3 a1 h1
  calc gmul 13 (gmul 2 a0 ^^^ (gmul 3 a1 ^^^ (a2 ^^^ a3))) ^^^
      (gmul 9 (a0 ^^^ (gmul 2 a1 ^^^ (gmul 3 a2 ^^^ a3))) ^^^
        (gmul 14 (a0 ^^^ (a1 ^^^ (gmul 2 a2 ^^^ gmul 3 a3))) ^^^
          gmul 11 (gmul 3 a0 ^^^ (a1 ^^^ (a2 ^^^ gmul 2 a3)))))
      = (gmul 14 (gmul 2 a2) ^^^ (gmul 11 a2 ^^^ (gmul 13 a2 ^^^ gmul 9 (gmul 3 a2)))) ^^^
        ((gmul 14 (gmul 3 a3) ^^^ (gmul 11 (gmul 2 a3) ^^^ (gmul 13 a3 ^^^ gmul 9 a3))) ^^^
          ((gmul 14 a0 ^^^ (gmul 11 (gmul 3 a0) ^^^ (gmul 13 (gmul 2 a0) ^^^ gmul 9 a0))) ^^^
            (gmul 14 a1 ^^^ (gmul 11 a1 ^^^ (gmul 13 (gmul 3 a1) ^^^ gmul 9 (gmul 2 a1)))))) := by
        simp only [gmul_xor]
        simp only [Nat.xor_assoc, Nat.xor_comm, xor_left_comm]
    _ = a2 ^^^ (0 ^^^ (0 ^^^ 0)) := by rw [k0, k1, k2, k3]
    _ = a2 := by simp

/-- Component 3 of InvMixColumns applied to a MixColumns output column. -/
theorem mixComp3 (a0 a1 a2 a3 : Nat) (h0 : a0 < 256) (h1 : a1 < 256)
    (h2 : a2 < 256) (h3 : a3 < 256) :
    gmul 11 (gmul 2 a0 ^^^ (gmul 3 a1 ^^^ (a2 ^^^ a3))) ^^^
      (gmul 13 (a0 ^^^ (gmul 2 a1 ^^^ (gmul 3 a2 ^^^ a3))) ^^^
        (gmul 9 (a0 ^^^ (a1 ^^^ (gmul 2 a2 ^^^ gmul 3 a3))) ^^^
          gmul 14 (gmul 3 a0 ^^^ (a1 ^^^ (a2 ^^^ gmul 2 a3))))) = a3 := by
  have k0 := mixCoeff_id a3 h3
  have k1 := mixCoeff_zero1 a0 h0
  have k2 := mixCoeff_zero2 a1 h1
  have k3 := mixCoeff_zero3 a2 h2
  calc gmul 11 (gmul 2 a0 ^^^ (gmul 3 a1 ^^^ (a2 ^^^ a3))) ^^^
      (gmul 13 (a0 ^^^ (gmul 2 a1 ^^^ (gmul 3 a2 ^^^ a3))) ^^^
        (gmul 9 (a0 ^^^ (a1 ^^^ (gmul 2 a2 ^^^ gmul 3 a3))) ^^^
          gmul 14 (gmul 3 a0 ^^^ (a1 ^^^ (a2 ^^^ gmul 2 a3)))))
      = (gmul 14 (gmul 2 a3) ^^^ (gmul 11 a3 ^^^ (gmul 13 a3 ^^^ gmul 9 (gmul 3 a3)))) ^^^
        ((gmul 14 (gmul 3 a0) ^^^ (gmul 11 (gmul 2 a0) ^^^ (gmul 13 a0 ^^^ gmul 9 a0))) ^^^
          ((gmul 14 a1 ^^^ (gmul 11 (gmul 3 a1) ^^^ (gmul 13 (gmul 2 a1) ^^^ gmul 9 a1))) ^^^
            (gmul 14 a2 ^^^ (gmul 11 a2 ^^^ (gmul 13 (gmul 3 a2) ^^^ gmul 9 (gmul 2 a2)))))) := by
        simp only [gmul_xor]
        simp only [Nat.xor_assoc, Nat.xor_comm, xor_left_comm]
    _ = a3 ^^^ (0 ^^^ (0 ^^^ 0)) := by rw [k0, k1, k2, k3]
    _ = a3 := by simp

/-- InvMixColumns inverts MixColumns on one column of bytes. -/
theorem invMixCol_mixCol (a0 a1 a2 a3 : Nat) (h0 : a0 < 256) (h1 : a1 < 256)
    (h2 : a2 < 256) (h3 : a3 < 256) :
    invMixCol (gmul 2 a0 ^^^ (gmul 3 a1 ^^^ (a2 ^^^ a3)))
        (a0 ^^^ (gmul 2 a1 ^^^ (gmul 3 a2 ^^^ a3)))
        (a0 ^^^ (a1 ^^^ (gmul 2 a2 ^^^ gmul 3 a3)))
        (gmul 3 a0 ^^^ (a1 ^^^ (a2 ^^^ gmul 2 a3))) = [a0, a1, a2, a3] := by
  unfold invMixCol
  rw [mixComp0 a0 a1 a2 a3 h0 h1 h2 h3, mixComp1 a0 a1 a2 a3 h0 h1 h2 h3,
    mixComp2 a0 a1 a2 a3 h0 h1 h2 h3, mixComp3 a0 a1 a2 a3 h0 h1 h2 h3]

/-- InvMixColumns inverts MixColumns on the full 16-byte state. -/
theorem invMixColumns_mixColumns (s : List Nat) (h : s.length = 16)
    (hs : ∀ x ∈ s, x < 256) : invMixColumns (mixColumns s) = s := by
  obtain ⟨a0, a1, a2, a3, a4, a5, a6, a7, a8, a9, a10, a11, a12, a13, a14, a15, rfl⟩ :=
    list16_explode s h
  simp only [List.mem_cons, List.not_mem_nil, or_false, forall_eq_or_imp, forall_eq] at hs
  obtain ⟨h0, h1, h2, h3, h4, h5, h6, h7, h8, h9, h10, h11, h12, h13, h14, h15⟩ := hs
  show invMixColumns (mixCol a0 a1 a2 a3 ++ (mixCol a4 a5 a6 a7 ++
    (mixCol a8 a9 a10 a11 ++ mixCol a12 a13 a14 a15))) = _
  simp only [mixCol, List.cons_append, List.nil_append]
  show invMixCol _ _ _ _ ++ (invMixCol _ _ _ _ ++ (invMixCol _ _ _ _ ++ invMixCol _ _ _ _)) = _
  rw [invMixCol_mixCol a0 a1 a2 a3 h0 h1 h2 h3, invMixCol_mixCol a4 a5 a6 a7 h4 h5 h6 h7,
    invMixCol_mixCol a8 a9 a10 a11 h8 h9 h10 h11,
    invMixCol_mixCol a12 a13 a14 a15 h12 h13 h14 h15]
  rfl

/-- A well-formed AES state or round key: 16 bytes. -/
def validBlock (s : List Nat) : Prop := s.length = 16 ∧ ∀ x ∈ s, x < 256

/-- A well-formed key schedule: every round key is 16 bytes. -/
def validKeys (ks : List (List Nat)) : Prop := ∀ k ∈ ks, validBlock k

theorem subBytes_valid (s : List Nat) (hs : validBlock s) : validBlock (subBytes s) :=
  ⟨by rw [subBytes_length, hs.1], subBytes_lt s hs.2⟩

theorem shiftRows_valid (s : List Nat) (hs : validBlock s) : validBlock (shiftRows s) :=
  ⟨shiftRows_length s hs.1, shiftRows_lt s hs.1 hs.2⟩

theorem mixColumns_valid (s : List Nat) (hs : validBlock s) : validBlock (mixColumns s) :=
  ⟨mixColumns_length s hs.1, mixColumns_lt s hs.1 hs.2⟩

theorem addRoundKey_valid (k s : List Nat) (hk : validBlock k) (hs : validBlock s) :
    validBlock (addRoundKey k s) :=
  ⟨by rw [addRoundKey_length, hk.1, hs.1]; rfl, addRoundKey_lt k s hk.2 hs.2⟩

theorem encRounds_valid (ks : List (List Nat)) :
    ∀ s, validKeys ks → validBlock s → validBlock (encRounds ks s) := by
  induction ks with
  | nil =>
    intro s _ hs
    simpa [encRounds] using hs
  | cons k ks ih =>
    intro s hks hs
    have hk : validBlock k := hks k (by simp)
    have hks2 : validKeys ks := fun k2 hm => hks k2 (by simp [hm])
    cases ks with
    | nil =>
      exact addRoundKey_valid k _ hk (shiftRows_valid _ (subBytes_valid s hs))
    | cons k2 ks2 =>
      exact ih _ hks2
        (addRoundKey_valid k _ hk
          (mixColumns_valid _ (shiftRows_valid _ (subBytes_valid s hs))))

theorem decRounds_encRounds (ks : List (List Nat)) :
    ∀ s, validKeys ks → validBlock s → decRounds ks (encRounds ks s) = s := by
  induction ks with
  | nil =>
    intro s _ _
    simp [encRounds, decRounds]
  | cons k ks ih =>
    intro s hks hs
    have hk : validBlock k := hks k (by simp)
    have hks2 : validKeys ks := fun k2 hm => hks k2 (by simp [hm])
    have hsub : validBlock (subBytes s) := subBytes_valid s hs
    have hshift : validBlock (shiftRows (subBytes s)) := shiftRows_valid _ hsub
    cases ks with
    | nil =>
      show invSubBytes (invShiftRows (addRoundKey k (addRoundKey k
        (shiftRows (subBytes s))))) = s
      rw [addRoundKey_addRoundKey k _ (by rw [hshift.1, hk.1]),
        invShiftRows_shiftRows _ hsub.1, invSubBytes_subBytes s hs.2]
    | cons k2 ks2 =>
      have hmix : validBlock (mixColumns (shiftRows (subBytes s))) :=
        mixColumns_valid _ hshift
      have hark : validBlock (addRoundKey k (mixColumns (shiftRows (subBytes s)))) :=
        addRoundKey_valid k _ hk hmix
      show invSubBytes (invShiftRows (invMixColumns (addRoundKey k
        (decRounds (k2 :: ks2) (encRounds (k2 :: ks2)
          (addRoundKey k (mixColumns (shiftRows (subBytes s))))))))) = s
      rw [ih _ hks2 hark, addRoundKey_addRoundKey k _ (by rw [hmix.1, hk.1]),
        invMixColumns_mixColumns _ hshift.1 hshift.2,
        invShiftRows_shiftRows _ hsub.1, invSubBytes_subBytes s hs.2]

/-- AES block decryption inverts AES block encryption for any well-formed
key schedule and block. -/
theorem decryptBlock_encryptBlock (rks : List (List Nat)) (b : List Nat)
    (hks : validKeys rks) (hb : validBlock b) :
    decryptBlock rks (encryptBlock rks b) = b := by
  cases rks with
  | nil => rfl
  | cons k ks =>
    have hk : validBlock k := hks k (by simp)
    have hks2 : validKeys ks := fun k2 hm => hks k2 (by simp [hm])
    have hark : validBlock (addRoundKey k b) := addRoundKey_valid k b hk hb
    show addRoundKey k (decRounds ks (encRounds ks (addRoundKey k b))) = b
    rw [decRounds_encRounds ks _ hks2 hark,
      addRoundKey_addRoundKey k b (by rw [hb.1, hk.1])]

theorem encryptBlock_valid (rks : List (List Nat)) (b : List Nat)
    (hks : validKeys rks) (hb : validBlock b) : validBlock (encryptBlock rks b) := by
  cases rks with
  | nil => exact hb
  | cons k ks =>
    have hk : validBlock k := hks k (by simp)
    have hks2 : validKeys ks := fun k2 hm => hks k2 (by simp [hm])
    exact encRounds_valid ks _ hks2 (addRoundKey_valid k b hk hb)

/-! ### ECB mode over 16-byte blocks (`AES.new(key, AES.MODE_ECB)` as used by
`_aes_encrypt` / `_aes_decrypt`) -/

/-- Split a byte list into successive 16-byte chunks. -/
def chunks16 : List Nat → List (List Nat)
  | [] => []
  | x :: xs => ((x :: xs).take 16) :: chunks16 ((x :: xs).drop 16)
termination_by l => l.length
decreasing_by simp; omega

theorem chunks16_eq_nonempty (x : Nat) (xs : List Nat) :
    chunks16 (x :: xs) = ((x :: xs).take 16) :: chunks16 ((x :: xs).drop 16) := by
  simp [chunks16]

theorem flatten_chunks16 (l : List Nat) : (chunks16 l).flatten = l := by
  induction l using chunks16.induct with
  | case1 => simp [chunks16]
  | case2 x xs ih =>
    rw [chunks16_eq_nonempty, List.flatten_cons, ih, List.take_append_drop]

theorem chunks16_append (b rest : List Nat) (hb : b.length = 16) :
    chunks16 (b ++ rest) = b :: chunks16 rest := by
  cases b with
  | nil => simp at hb
  | cons x xs =>
    rw [List.cons_append, chunks16_eq_nonempty, ← List.cons_append]
    have ht : ((x :: xs) ++ rest).take 16 = x :: xs := by
      rw [← hb]
      exact List.take_left _ _
    have hd : ((x :: xs) ++ rest).drop 16 = rest := by
      rw [← hb]
      exact List.drop_left _ _
    rw [ht, hd]

theorem chunks16_of_blocks (bls : List (List Nat))
    (h : ∀ b ∈ bls, b.length = 16) : chunks16 bls.flatten = bls := by
  induction bls with
  | nil => simp [chunks16]
  | cons b bls ih =>
    rw [List.flatten_cons, chunks16_append b _ (h b (by simp)),
      ih (fun b2 hm => h b2 (by simp [hm]))]

theorem chunks16_valid (l : List Nat) : l.length % 16 = 0 →
    (∀ x ∈ l, x < 256) → ∀ b ∈ chunks16 l, validBlock b := by
  induction l using chunks16.induct with
  | case1 =>
    intro _ _ b hm
    simp [chunks16] at hm
  | case2 x xs ih =>
    intro h16 hb b hm
    have hpos : 0 < (x :: xs).length := by simp
    have hlen16 : 16 ≤ (x :: xs).length := by omega
    rw [chunks16_eq_nonempty] at hm
    rcases List.mem_cons.mp hm with rfl | hm2
    · refine ⟨?_, ?_⟩
      · rw [List.length_take]
        omega
      · intro y hy
        exact hb y (List.mem_of_mem_take hy)
    · have hd16 : ((x :: xs).drop 16).length % 16 = 0 := by
        rw [List.length_drop]
        omega
      exact ih hd16 (fun y hy => hb y (List.mem_of_mem_drop hy)) b hm2

/-- ECB encryption of a byte string that is a whole number of blocks
(the only way the source ever invokes it, on padded data). -/
def ecbEncrypt (rks : List (List Nat)) (bs : List Nat) : List Nat :=
  ((chunks16 bs).map (encryptBlock rks)).flatten

/-- ECB decryption; `None` when the input is not a whole number of blocks
(pycryptodome raises ValueError there). -/
def ecbDecrypt (rks : List (List Nat)) (bs : List Nat) : Option (List Nat) :=
  if bs.length % 16 = 0 then some (((chunks16 bs).map (decryptBlock rks)).flatten)
  else none

theorem ecbEncrypt_blocks_valid (rks : List (List Nat)) (bs : List Nat)
    (hks : validKeys rks) (h16 : bs.length % 16 = 0) (hb : ∀ x ∈ bs, x < 256) :
    ∀ b ∈ (chunks16 bs).map (encryptBlock rks), validBlock b := by
  intro b hm
  rcases List.mem_map.mp hm with ⟨c, hc, rfl⟩
  exact encryptBlock_valid rks c hks (chunks16_valid bs h16 hb c hc)

theorem ecbDecrypt_ecbEncrypt (rks : List (List Nat)) (bs : List Nat)
    (hks : validKeys rks) (h16 : bs.length % 16 = 0) (hb : ∀ x ∈ bs, x < 256) :
    ecbDecrypt rks (ecbEncrypt rks bs) = some bs := by
  have hbl := ecbEncrypt_blocks_valid rks bs hks h16 hb
  have hchunks : chunks16 (ecbEncrypt rks bs) = (chunks16 bs).map (encryptBlock rks) :=
    chunks16_of_blocks _ (fun b hm => (hbl b hm).1)
  have hlen : (ecbEncrypt rks bs).length % 16 = 0 := by
    have : ∀ bls : List (List Nat), (∀ b ∈ bls, validBlock b) →
        bls.flatten.length % 16 = 0 := by
      intro bls
      induction bls with
      | nil => simp
      | cons b bls ih =>
        intro h
        rw [List.flatten_cons, List.length_append, (h b (by simp)).1]
        have := ih (fun b2 hm => h b2 (by simp [hm]))
        omega
    exact this _ hbl
  unfold ecbDecrypt
  rw [if_pos hlen, hchunks, List.map_map]
  have hmapped : ((chunks16 bs).map (decryptBlock rks ∘ encryptBlock rks)) = chunks16 bs := by
    have h : ∀ c ∈ chunks16 bs, (decryptBlock rks ∘ encryptBlock rks) c = id c :=
      fun c hc => decryptBlock_encryptBlock rks c hks (chunks16_valid bs h16 hb c hc)
    rw [List.map_congr_left h, List.map_id]
  rw [hmapped, flatten_chunks16]

theorem ecbEncrypt_length_mod (rks : List (List Nat)) (bs : List Nat)
    (hks : validKeys rks) (h16 : bs.length % 16 = 0) (hb : ∀ x ∈ bs, x < 256) :
    (ecbEncrypt rks bs).length % 16 = 0 := by
  have hbl := ecbEncrypt_blocks_valid rks bs hks h16 hb
  have : ∀ bls : List (List Nat), (∀ b ∈ bls, validBlock b) →
      bls.flatten.length % 16 = 0 := by
    intro bls
    induction bls with
    | nil => simp
    | cons b bls ih =>
      intro h
      rw [List.flatten_cons, List.length_append, (h b (by simp)).1]
      have := ih (fun b2 hm => h b2 (by simp [hm]))
      omega
  exact this _ hbl

theorem ecbEncrypt_lt (rks : List (List Nat)) (bs : List Nat)
    (hks : validKeys rks) (h16 : bs.length % 16 = 0) (hb : ∀ x ∈ bs, x < 256) :
    ∀ x ∈ ecbEncrypt rks bs, x < 256 := by
  intro x hx
  unfold ecbEncrypt at hx
  rcases List.mem_flatten.mp hx with ⟨b, hbm, hxb⟩
  exact (ecbEncrypt_blocks_valid rks bs hks h16 hb b hbm).2 x hxb

/-! ### PKCS#7 padding (`Crypto.Util.Padding.pad` / `unpad`, block size 16) -/

/-- PKCS#7 padding: append n copies of the byte n, n = 16 - len mod 16. -/
def pad16 (bs : List Nat) : List Nat :=
  bs ++ List.replicate (16 - bs.length % 16) (16 - bs.length % 16)

/-- PKCS#7 unpadding, mirroring pycryptodome `unpad`: `None` where the
original raises ValueError (empty input, length not a whole number of
blocks, padding byte out of range, inconsistent padding bytes). -/
def unpad16 (bs : List Nat) : Option (List Nat) :=
  if bs.length = 0 then none
  else if bs.length % 16 ≠ 0 then none
  else
    let n := bs.getLast?.getD 0
    if n < 1 ∨ 16 < n ∨ bs.length < n then none
    else if bs.drop (bs.length - n) ≠ List.replicate n n then none
    else some (bs.take (bs.length - n))

theorem pad16_length_mod (bs : List Nat) : (pad16 bs).length % 16 = 0 := by
  unfold pad16
  rw [List.length_append, List.length_replicate]
  omega

theorem pad16_lt (bs : List Nat) (hb : ∀ x ∈ bs, x < 256) :
    ∀ x ∈ pad16 bs, x < 256 := by
  intro x hx
  rcases List.mem_append.mp hx with hx2 | hx2
  · exact hb x hx2
  · have := List.eq_of_mem_replicate hx2
    omega

theorem unpad16_pad16 (bs : List Nat) : unpad16 (pad16 bs) = some bs := by
  set n := 16 - bs.length % 16 with hn
  have hn1 : 1 ≤ n := by omega
  have hn16 : n ≤ 16 := by omega
  have hlen : (pad16 bs).length = bs.length + n := by
    unfold pad16
    rw [List.length_append, List.length_replicate]
  have hlast : (pad16 bs).getLast? = some n := by
    unfold pad16
    rw [← hn, List.getLast?_append, List.getLast?_replicate]
    rw [if_neg (by omega)]
    simp
  unfold unpad16
  rw [if_neg (by omega), if_neg (by push_neg; rw [hlen]; omega), hlast]
  simp only [Option.getD_some]
  rw [if_neg (by push_neg; omega)]
  have hsub : (pad16 bs).length - n = bs.length := by omega
  have hdrop : (pad16 bs).drop ((pad16 bs).length - n) = List.replicate n n := by
    rw [hsub]
    unfold pad16
    exact List.drop_left _ _
  rw [if_neg (by rw [hdrop]; simp)]
  rw [hsub]
  unfold pad16
  rw [List.take_left]

/-! ### Base64 (the `base64.b64encode` / `b64decode` pair used by the codec;
decoding is modelled strictly: any character outside the alphabet or
malformed padding yields `None`, where CPython additionally discards
non-alphabet bytes before decoding -- a difference no claim exercises) -/

def b64chars : List Char :=
  "ABCDEFGHIJKLMNOPQRSTUVWXYZabcdefghijklmnopqrstuvwxyz0123456789+/".data

def b64encChar (n : Nat) : Char := b64chars.getD n 'A'

def b64decChar (c : Char) : Option Nat :=
  let i := b64chars.indexOf c
  if i < 64 then some i else none

theorem b64decChar_encChar : ∀ s < 64, b64decChar (b64encChar s) = some s := by decide

theorem b64encChar_ne_eq : ∀ s < 64, b64encChar s ≠ '=' := by decide

def b64encode : List Nat → List Char
  | [] => []
  | [a] => [b64encChar (a / 4), b64encChar (a % 4 * 16), '=', '=']
  | [a, b] => [b64encChar (a / 4), b64encChar (a % 4 * 16 + b / 16),
      b64encChar (b % 16 * 4), '=']
  | a :: b :: c :: rest =>
    b64encChar (a / 4) :: b64encChar (a % 4 * 16 + b / 16) ::
      b64encChar (b % 16 * 4 + c / 64) :: b64encChar (c % 64) :: b64encode rest

def b64decode : List Char → Option (List Nat)
  | [] => some []
  | c1 :: c2 :: c3 :: c4 :: rest =>
    match b64decChar c1, b64decChar c2 with
    | some s1, some s2 =>
      if c3 = '=' then
        if c4 = '=' ∧ rest = [] then some [s1 * 4 + s2 / 16] else none
      else
        match b64decChar c3 with
        | some s3 =>
          if c4 = '=' then
            if rest = [] then some [s1 * 4 + s2 / 16, s2 % 16 * 16 + s3 / 4] else none
          else
            match b64decChar c4 with
            | some s4 => (b64decode rest).map
                (fun bs => (s1 * 4 + s2 / 16) ::
                  ((s2 % 16 * 16 + s3 / 4) :: ((s3 % 4 * 64 + s4) :: bs)))
            | none => none
        | none => none
    | _, _ => none
  | _ => none

theorem b64decode_encode (bs : List Nat) : (∀ x ∈ bs, x < 256) →
    b64decode (b64encode bs) = some bs := by
  induction bs using b64encode.induct with
  | case1 =>
    intro _
    rfl
  | case2 a =>
    intro hb
    have ha : a < 256 := hb a (by simp)
    rw [b64encode]
    simp [b64decode, b64decChar_encChar (a / 4) (by omega),
      b64decChar_encChar (a % 4 * 16) (by omega)]; omega
  | case3 a b =>
    intro hb
    have ha : a < 256 := hb a (by simp)
    have hbb : b < 256 := hb b (by simp)
    rw [b64encode]
    simp [b64decode, b64decChar_encChar (a / 4) (by omega),
      b64decChar_encChar (a % 4 * 16 + b / 16) (by omega),
      b64decChar_encChar (b % 16 * 4) (by omega),
      b64encChar_ne_eq (b % 16 * 4) (by omega)]; omega
  | case4 a b c rest ih =>
    intro hb
    have ha : a < 256 := hb a (by simp)
    have hbb : b < 256 := hb b (by simp)
    have hc : c < 256 := hb c (by simp)
    rw [b64encode]
    simp [b64decode, b64decChar_encChar (a / 4) (by omega),
      b64decChar_encChar (a % 4 * 16 + b / 16) (by omega),
      b64decChar_encChar (b % 16 * 4 + c / 64) (by omega),
      b64decChar_encChar (c % 64) (by omega),
      b64encChar_ne_eq (b % 16 * 4 + c / 64) (by omega),
      b64encChar_ne_eq (c % 64) (by omega),
      ih (fun x hx => hb x (by simp [hx]))]; omega


/-! ### UTF-8 (`str.encode("utf-8")` / `bytes.decode()`) -/

def utf8EncodeChar (c : Char) : List Nat :=
  if c.toNat < 0x80 then [c.toNat]
  else if c.toNat < 0x800 then
    [0xC0 ||| (c.toNat >>> 6), 0x80 ||| (c.toNat &&& 0x3F)]
  else if c.toNat < 0x10000 then
    [0xE0 ||| (c.toNat >>> 12), 0x80 ||| ((c.toNat >>> 6) &&& 0x3F),
      0x80 ||| (c.toNat &&& 0x3F)]
  else
    [0xF0 ||| (c.toNat >>> 18), 0x80 ||| ((c.toNat >>> 12) &&& 0x3F),
      0x80 ||| ((c.toNat >>> 6) &&& 0x3F), 0x80 ||| (c.toNat &&& 0x3F)]

def utf8Encode (s : String) : List Nat := (s.data.map utf8EncodeChar).flatten

/-- Decode one UTF-8 sequence: leading byte `b`, following bytes `rest`;
returns the codepoint and how many bytes of `rest` it consumed. -/
def utf8DecodeOne (b : Nat) (rest : List Nat) : Option (Nat × Nat) :=
  if b < 0x80 then some (b, 0)
  else if b < 0xC0 then none
  else if b < 0xE0 then
    match rest with
    | b2 :: _ =>
      if 0x80 ≤ b2 ∧ b2 < 0xC0 then
        if 0x80 ≤ ((b &&& 0x1F) <<< 6) ||| (b2 &&& 0x3F) then
          some (((b &&& 0x1F) <<< 6) ||| (b2 &&& 0x3F), 1)
        else none
      else none
    | [] => none
  else if b < 0xF0 then
    match rest with
    | b2 :: b3 :: _ =>
      if (0x80 ≤ b2 ∧ b2 < 0xC0) ∧ (0x80 ≤ b3 ∧ b3 < 0xC0) then
        if 0x800 ≤ ((b &&& 0x0F) <<< 12) ||| (((b2 &&& 0x3F) <<< 6) ||| (b3 &&& 0x3F)) ∧
            ¬(0xD800 ≤ ((b &&& 0x0F) <<< 12) ||| (((b2 &&& 0x3F) <<< 6) ||| (b3 &&& 0x3F)) ∧
              ((b &&& 0x0F) <<< 12) ||| (((b2 &&& 0x3F) <<< 6) ||| (b3 &&& 0x3F)) < 0xE000) then
          some (((b &&& 0x0F) <<< 12) ||| (((b2 &&& 0x3F) <<< 6) ||| (b3 &&& 0x3F)), 2)
        else none
      else none
    | _ => none
  else if b < 0xF8 then
    match rest with
    | b2 :: b3 :: b4 :: _ =>
      if (0x80 ≤ b2 ∧ b2 < 0xC0) ∧ ((0x80 ≤ b3 ∧ b3 < 0xC0) ∧ (0x80 ≤ b4 ∧ b4 < 0xC0)) then
        if 0x10000 ≤ ((b &&& 0x07) <<< 18) ||| (((b2 &&& 0x3F) <<< 12) |||
              (((b3 &&& 0x3F) <<< 6) ||| (b4 &&& 0x3F))) ∧
            ((b &&& 0x07) <<< 18) ||| (((b2 &&& 0x3F) <<< 12) |||
              (((b3 &&& 0x3F) <<< 6) ||| (b4 &&& 0x3F))) < 0x110000 then
          some (((b &&& 0x07) <<< 18) ||| (((b2 &&& 0x3F) <<< 12) |||
            (((b3 &&& 0x3F) <<< 6) ||| (b4 &&& 0x3F))), 3)
        else none
      else none
    | _ => none
  else none

/-- Decode a UTF-8 byte list to characters; `None` on any invalid sequence. -/
def utf8DecodeChars : List Nat → Option (List Char)
  | [] => some []
  | b :: rest =>
    match utf8DecodeOne b rest with
    | none => none
    | some (cp, k) => (utf8DecodeChars (rest.drop k)).map (fun cs => Char.ofNat cp :: cs)
termination_by bs => bs.length
decreasing_by simp [List.length_drop]; omega

theorem utf8DecodeChars_cons (b : Nat) (rest : List Nat) :
    utf8DecodeChars (b :: rest) =
      match utf8DecodeOne b rest with
      | none => none
      | some (cp, k) =>
        (utf8DecodeChars (rest.drop k)).map (fun cs => Char.ofNat cp :: cs) := by
  rw [utf8DecodeChars]

def utf8Decode (bs : List Nat) : Option String :=
  (utf8DecodeChars bs).map (fun cs => String.mk cs)

theorem utf8EncodeChar_ascii (c : Char) (h : c.toNat < 128) :
    utf8EncodeChar c = [c.toNat] := by
  unfold utf8EncodeChar
  rw [if_pos h]

theorem utf8Encode_ascii_eq (cs : List Char) : (∀ c ∈ cs, c.toNat < 128) →
    (cs.map utf8EncodeChar).flatten = cs.map Char.toNat := by
  induction cs with
  | nil =>
    intro _
    rfl
  | cons c cs ih =>
    intro h
    rw [List.map_cons, List.flatten_cons, utf8EncodeChar_ascii c (h c (by simp)),
      ih (fun x hx => h x (by simp [hx])), List.map_cons, List.singleton_append]

theorem utf8DecodeChars_ascii (cs : List Char) : (∀ c ∈ cs, c.toNat < 128) →
    utf8DecodeChars (cs.map Char.toNat) = some cs := by
  induction cs with
  | nil =>
    intro _
    simp [utf8DecodeChars]
  | cons c cs ih =>
    intro h
    have hc : c.toNat < 128 := h c (by simp)
    have hone : utf8DecodeOne c.toNat (cs.map Char.toNat) = some (c.toNat, 0) := by
      unfold utf8DecodeOne
      rw [if_pos hc]
    rw [List.map_cons, utf8DecodeChars_cons, hone]
    show (utf8DecodeChars ((cs.map Char.toNat).drop 0)).map
      (fun cs2 => Char.ofNat c.toNat :: cs2) = some (c :: cs)
    rw [List.drop_zero, ih (fun x hx => h x (by simp [hx]))]
    show some (Char.ofNat c.toNat :: cs) = some (c :: cs)
    rw [Char.ofNat_toNat]

theorem utf8Decode_utf8Encode_ascii (s : String)
    (h : ∀ c ∈ s.data, c.toNat < 128) : utf8Decode (utf8Encode s) = some s := by
  unfold utf8Decode utf8Encode
  rw [utf8Encode_ascii_eq s.data h, utf8DecodeChars_ascii s.data h]
  cases s
  rfl

/-! ### The Crypto Codec of api.py: `_aes_encrypt` and `_aes_decrypt` -/

/-- The fixed 16-byte key (`ENCRYPTION_KEY` in const.py). -/
def ENCRYPTION_KEY : String := "ed*wijdi$h6fe3ew"

/-- The AES-128 key schedule of the fixed key. -/
def renphoRoundKeys : List (List Nat) := roundKeysOf (utf8Encode ENCRYPTION_KEY)

theorem renphoRoundKeys_valid : validKeys renphoRoundKeys := by
  unfold validKeys validBlock
  decide

/-- Base64-encode bytes to text. -/
def b64encodeStr (bs : List Nat) : String := String.mk (b64encode bs)

/-- Base64-decode text to bytes. -/
def b64decodeStr (s : String) : Option (List Nat) := b64decode s.data

theorem String_data_mk (cs : List Char) : (String.mk cs).data = cs := rfl

/-- `RenphoApi._aes_encrypt`: UTF-8 encode, PKCS#7 pad, AES-128-ECB
encrypt with the fixed key, base64 encode. -/
def aes_encrypt (plaintext : String) : String :=
  b64encodeStr (ecbEncrypt renphoRoundKeys (pad16 (utf8Encode plaintext)))

/-- `RenphoApi._aes_decrypt`: base64 decode, AES-128-ECB decrypt, strip
PKCS#7 padding, UTF-8 decode; `None` wherever the Python raises. -/
def aes_decrypt (ciphertext : String) : Option String :=
  match b64decodeStr ciphertext with
  | none => none
  | some bytes =>
    match ecbDecrypt renphoRoundKeys bytes with
    | none => none
    | some dec =>
      match unpad16 dec with
      | none => none
      | some plain => utf8Decode plain

/-- C7: for all printable-ASCII plaintexts P, decrypt(encrypt(P)) == P,
where encrypt produces base64 text of the AES-128-ECB ciphertext of the
padded plaintext and decrypt reverses it. -/
theorem aes_decrypt_aes_encrypt (P : String)
    (hP : ∀ c ∈ P.data, 32 ≤ c.toNat ∧ c.toNat ≤ 126) :
    aes_decrypt (aes_encrypt P) = some P := by
  have hascii : ∀ c ∈ P.data, c.toNat < 128 := by
    intro c hc
    have := hP c hc
    omega
  have hbytes : ∀ x ∈ utf8Encode P, x < 256 := by
    unfold utf8Encode
    rw [utf8Encode_ascii_eq P.data hascii]
    intro x hx
    rcases List.mem_map.mp hx with ⟨c, hc, rfl⟩
    have := hascii c hc
    omega
  have hpadlt := pad16_lt _ hbytes
  have hpadmod := pad16_length_mod (utf8Encode P)
  have hkeys := renphoRoundKeys_valid
  have hctlt := ecbEncrypt_lt _ _ hkeys hpadmod hpadlt
  simp only [aes_decrypt, aes_encrypt, b64decodeStr, b64encodeStr, String_data_mk,
    b64decode_encode _ hctlt, ecbDecrypt_ecbEncrypt _ _ hkeys hpadmod hpadlt,
    unpad16_pad16, utf8Decode_utf8Encode_ascii P hascii]

/-- Witness for C7 at a concrete printable-ASCII plaintext. -/
theorem aes_decrypt_aes_encrypt_witness :
    (∀ c ∈ ("abc 123" : String).data, 32 ≤ c.toNat ∧ c.toNat ≤ 126) ∧
      aes_decrypt (aes_encrypt "abc 123") = some "abc 123" :=
  ⟨by decide, aes_decrypt_aes_encrypt "abc 123" (by decide)⟩

/-! ### Response post-processing in `_api_call` (api.py lines 133-143) -/

/-- Post-processing of the `data` field of a code-101 response
(api.py lines 133-143): the value stored under the `decrypted` key, or
`None` when no key is added. `resp_data.get("data")` truthiness gates the
block; `base64.b64decode` may raise; decryption runs only when the decoded
length is a whole number of 16-byte blocks; every exception in the block is
caught and logged. The source then applies `json.loads` to the decrypted
text inside the same `try`; the model keeps the plaintext, and a JSON parse
failure is likewise swallowed, adding no key. -/
def processData (data : Option String) : Option String :=
  match data with
  | none => none
  | some d =>
    if d = "" then none
    else
      match b64decodeStr d with
      | none => none
      | some decoded =>
        if decoded.length % 16 = 0 then
          match aes_decrypt d with
          | none => none
          | some plain => some plain
        else none

/-- Whether the post-processing reaches the `_aes_decrypt` call. -/
def decryption_attempted (data : Option String) : Bool :=
  match data with
  | none => false
  | some d =>
    if d = "" then false
    else
      match b64decodeStr d with
      | none => false
      | some decoded => decoded.length % 16 = 0

/-! ### The Session Client (api.py `RenphoApi`) -/

/-- The profile mapping carried in a login response and retained as
`_user_info`; only the fields the source reads are modelled. -/
structure UserInfo where
  token : Option String
  id : Option Int
  weight : Option ℚ
  height : Option ℚ
  weightGoal : Option ℚ
  bodyfatGoal : Option ℚ
deriving DecidableEq

/-- The empty profile mapping (`{}`). -/
def emptyUserInfo : UserInfo := ⟨none, none, none, none, none, none⟩

/-- One body-composition measurement object, with the fields
`get_measurements` reads; `none` is an absent (or Python-falsy) entry. -/
structure Meas where
  weight : Option ℚ
  bodyfat : Option ℚ
  bmi : Option ℚ
  muscle : Option ℚ
  water : Option ℚ
  bone : Option ℚ
  bmr : Option ℚ
  bodyage : Option ℚ
  visfat : Option ℚ
  subfat : Option ℚ
  protein : Option ℚ
  sinew : Option ℚ
  fatFreeWeight : Option ℚ
  heartRate : Option ℚ
  localCreatedAt : Option String
  scaleName : Option String
deriving DecidableEq

/-- The empty measurement object (`{}`). -/
def emptyMeas : Meas :=
  ⟨none, none, none, none, none, none, none, none, none, none, none, none,
    none, none, none, none⟩

/-- The decrypted JSON document of a response, abstracted to the keys the
session layer reads; `none` stands for an absent or Python-falsy value
(the byte-level pipeline behind it is `processData` above). -/
structure Decrypted where
  login : Option UserInfo
  fourElectrodeWeight : Option Meas
  eightElectrodeWeight : Option Meas
deriving DecidableEq

/-- The mutable state of a `RenphoApi` instance. -/
structure Session where
  email : String
  password : String
  token : Option String
  user_id : Option Int
  user_info : UserInfo
  token_validated : Bool
  disable_auto_reauth : Bool
deriving DecidableEq

/-- `RenphoApi.__init__`. -/
def initSession (email password : String) : Session :=
  ⟨email, password, none, none, emptyUserInfo, false, false⟩

/-- Python truthiness of an optional string (`None` and `""` are falsy). -/
def truthyStr : Option String → Bool
  | none => false
  | some s => s != ""

/-- Python truthiness of an optional integer (`None` and `0` are falsy). -/
def truthyInt : Option Int → Bool
  | none => false
  | some n => n != 0

/-- `AUTH_ERROR_CODES` (api.py line 27). -/
def AUTH_ERROR_CODES : List Int := [102, 103, 104, 401, 403]

/-- `AUTH_ERROR_MESSAGES` (api.py line 28). -/
def AUTH_ERROR_MESSAGES : List String :=
  ["token", "login", "unauthorized", "expired", "invalid", "forbidden"]

/-- `str.lower`, per character. -/
def lowerStr (s : String) : String := String.mk (s.data.map Char.toLower)

/-- Does the list start with the given needle? -/
def listStartsWith (needle : List Char) : List Char → Bool :=
  fun hay =>
    match needle, hay with
    | [], _ => true
    | _ :: _, [] => false
    | a :: as, b :: bs => a == b && listStartsWith as bs

/-- Python `needle in hay` for strings, on character lists. -/
def listHasSub (needle : List Char) : List Char → Bool
  | [] => listStartsWith needle []
  | c :: t => listStartsWith needle (c :: t) || listHasSub needle t

/-- Python `needle in hay` on strings. -/
def strContains (hay needle : String) : Bool := listHasSub needle.data hay.data

/-- `RenphoApi._is_auth_error`. -/
def is_auth_error (code : Int) (message : String) : Bool :=
  AUTH_ERROR_CODES.contains code ||
    AUTH_ERROR_MESSAGES.any (fun kw => strContains (lowerStr message) kw)

/-- The two exception kinds: RenphoAuthError is a subclass of
RenphoApiError; the sum keeps them apart, and a handler for RenphoApiError
catches both variants. -/
inductive RError where
  | auth (msg : String)
  | api (msg : String)
deriving DecidableEq

/-- What the network returns for one `_api_call`: either `urlopen`/JSON
parsing raises, or a parsed response envelope arrives. The `decrypted`
field abstracts the byte-level `processData` pipeline: `none` when the
`data` field was absent, skipped, or failed to decrypt. -/
inductive NetOutcome where
  | netFail (msg : String)
  | resp (code : Int) (msg : String) (decrypted : Option Decrypted)
deriving DecidableEq

/-- The message of an outcome. -/
def msgOf : NetOutcome → String
  | NetOutcome.netFail m => m
  | NetOutcome.resp _ m _ => m

/-- The decrypted document of an outcome. -/
def decOf : NetOutcome → Option Decrypted
  | NetOutcome.netFail _ => none
  | NetOutcome.resp _ _ d => d

/-- A response as `_api_call` returns it at the session layer. -/
structure SessResp where
  code : Int
  msg : String
  decrypted : Option Decrypted
deriving DecidableEq

/-- `RenphoApi._api_call` (api.py lines 97-143) at the session layer, for
one network outcome `o`: transport failure becomes RenphoApiError; a
non-101 code raises RenphoAuthError (resetting `_token_validated`) when
`_is_auth_error` classifies it, RenphoApiError otherwise; a 101 response is
returned with its (possibly absent) decrypted document. -/
def api_call (s : Session) (o : NetOutcome) : Except RError SessResp × Session :=
  match o with
  | NetOutcome.netFail m => (Except.error (RError.api ("API call failed: " ++ m)), s)
  | NetOutcome.resp code msg dec =>
    if code ≠ 101 then
      if is_auth_error code msg then
        (Except.error (RError.auth ("Authentication error: " ++ msg)),
          { s with token_validated := false })
      else (Except.error (RError.api ("API error: " ++ msg)), s)
    else (Except.ok ⟨code, msg, dec⟩, s)

/-- `RenphoApi._login` (api.py lines 149-184), for one network outcome:
any `_api_call` failure (auth or api: RenphoAuthError is a subclass of
RenphoApiError, so the `except RenphoApiError` catches both) is re-raised
as RenphoAuthError; a response without a decrypted document is an
AuthError; otherwise token, user id, and user_info are assigned from the
`login` object BEFORE the final check that both token and id are truthy,
which raises AuthError when they are not. -/
def login_step (s : Session) (o : NetOutcome) : Except RError Bool × Session :=
  match api_call s o with
  | (Except.error e, s1) =>
    (Except.error (RError.auth ("Login failed: " ++
      (match e with | RError.auth m => m | RError.api m => m))), s1)
  | (Except.ok r, s1) =>
    match r.decrypted with
    | none => (Except.error (RError.auth "Failed to decrypt login response"), s1)
    | some d =>
      let li := d.login.getD emptyUserInfo
      let s2 := { s1 with
        token := li.token,
        user_id := li.id,
        user_info := li,
        token_validated := true }
      if truthyStr li.token && truthyInt li.id then (Except.ok true, s2)
      else (Except.error (RError.auth "Login response missing token or user ID"), s2)

/-- `RenphoApi.set_cached_token` (api.py lines 190-196). -/
def set_cached_token (s : Session) (token : String) (user_id : Int)
    (disable_auto_reauth : Bool) : Session :=
  { s with
    token := some token,
    user_id := some user_id,
    token_validated := false,
    disable_auto_reauth := disable_auto_reauth }

/-- The persistable token document. -/
structure TokenData where
  token : String
  user_id : Int
deriving DecidableEq

/-- `RenphoApi.get_token_data` (api.py lines 198-205): the document when
`self._token and self._user_id` is truthy, else `None`. -/
def get_token_data (s : Session) : Option TokenData :=
  if truthyStr s.token && truthyInt s.user_id then
    some ⟨s.token.getD "", s.user_id.getD 0⟩
  else none

/-- `RenphoApi.has_valid_token` (api.py lines 207-210): `is not None` on
both fields. -/
def has_valid_token (s : Session) : Bool := s.token.isSome && s.user_id.isSome

/-- The derived measurement record `get_measurements` returns
(api.py lines 246-267). Weights are rationals standing in for Python
floats; no claim exercises a binary-float-specific edge. -/
structure MeasRecord where
  weight_kg : ℚ
  weight_lbs : Option ℚ
  bodyfat : Option ℚ
  bmi : Option ℚ
  muscle : Option ℚ
  water : Option ℚ
  bone : Option ℚ
  bmr : Option ℚ
  bodyage : Option ℚ
  visfat : Option ℚ
  subfat : Option ℚ
  protein : Option ℚ
  sinew : Option ℚ
  fat_free_weight : Option ℚ
  heart_rate : Option ℚ
  height_cm : Option ℚ
  weight_goal_kg : Option ℚ
  bodyfat_goal : Option ℚ
  last_measurement : Option String
  scale_name : Option String
deriving DecidableEq

/-- Round to the nearest integer, ties to even — the rounding of Python
`round`. -/
def roundHalfEven (q : ℚ) : ℤ :=
  if q - ⌊q⌋ < 1 / 2 then ⌊q⌋
  else if 1 / 2 < q - ⌊q⌋ then ⌊q⌋ + 1
  else if ⌊q⌋ % 2 = 0 then ⌊q⌋ else ⌊q⌋ + 1

/-- Python `round(x, 1)`. -/
def pyRound1 (q : ℚ) : ℚ := (roundHalfEven (q * 10) : ℚ) / 10

/-- The record construction of `get_measurements` (api.py lines 235-267):
extract the measurement object (four-electrode preferred, then
eight-electrode, else `{}`), take the weight with the profile fallback
(`measurement.get("weight") or self._user_info.get("weight", 0)`), and
build the flat record; `weight_lbs` is
`round(weight_kg * 2.20462, 1) if weight_kg else None`. -/
def buildRecord (r : SessResp) (ui : UserInfo) : MeasRecord :=
  let measurement :=
    match r.decrypted with
    | none => emptyMeas
    | some d => (d.fourElectrodeWeight.or d.eightElectrodeWeight).getD emptyMeas
  let weight_kg : ℚ :=
    match measurement.weight with
    | some w => if w ≠ 0 then w else ui.weight.getD 0
    | none => ui.weight.getD 0
  { weight_kg := weight_kg,
    weight_lbs :=
      if weight_kg ≠ 0 then some (pyRound1 (weight_kg * (220462 / 100000 : ℚ)))
      else none,
    bodyfat := measurement.bodyfat,
    bmi := measurement.bmi,
    muscle := measurement.muscle,
    water := measurement.water,
    bone := measurement.bone,
    bmr := measurement.bmr,
    bodyage := measurement.bodyage,
    visfat := measurement.visfat,
    subfat := measurement.subfat,
    protein := measurement.protein,
    sinew := measurement.sinew,
    fat_free_weight := measurement.fatFreeWeight,
    heart_rate := measurement.heartRate,
    height_cm := ui.height,
    weight_goal_kg := ui.weightGoal,
    bodyfat_goal := ui.bodyfatGoal,
    last_measurement := measurement.localCreatedAt,
    scale_name := measurement.scaleName }

deriving instance DecidableEq for Except

/-- One HTTP call made during a run: the login endpoint or the
daily-measurement endpoint. -/
inductive CallKind where
  | loginCall
  | fetchCall
deriving DecidableEq

/-- Result of a `get_measurements` run: the returned record or raised
error, the session state afterwards, and the network calls made in
order. -/
structure RunOut where
  result : Except RError MeasRecord
  state : Session
  calls : List CallKind
deriving DecidableEq

/-- The fetch-and-classify part of `get_measurements` (api.py lines
222-267), consuming oracle outcomes from index `n`: on success mark the
token validated and build the record; on RenphoAuthError either raise (when
auto re-auth is disabled) or login once and retry the fetch exactly once,
any error of the retry propagating; on RenphoApiError propagate with no
re-auth. The retry does not touch `_token_validated` (line 224 is inside
the first `try` only); `_login` set it on line 178. -/
def fetch_phase (s : Session) (o : Nat → NetOutcome) (n : Nat)
    (pre : List CallKind) : RunOut :=
  match api_call s (o n) with
  | (Except.ok r, s1) =>
    ⟨Except.ok (buildRecord r s1.user_info), { s1 with token_validated := true },
      pre ++ [CallKind.fetchCall]⟩
  | (Except.error (RError.auth _), s1) =>
    if s1.disable_auto_reauth then
      ⟨Except.error (RError.auth
        "Token expired. Update token from mobile app to avoid logout."),
        s1, pre ++ [CallKind.fetchCall]⟩
    else
      match login_step s1 (o (n + 1)) with
      | (Except.error e, s2) =>
        ⟨Except.error e, s2, pre ++ [CallKind.fetchCall, CallKind.loginCall]⟩
      | (Except.ok _, s2) =>
        match api_call s2 (o (n + 2)) with
        | (Except.ok r, s3) =>
          ⟨Except.ok (buildRecord r s3.user_info), s3,
            pre ++ [CallKind.fetchCall, CallKind.loginCall, CallKind.fetchCall]⟩
        | (Except.error e, s3) =>
          ⟨Except.error e, s3,
            pre ++ [CallKind.fetchCall, CallKind.loginCall, CallKind.fetchCall]⟩
  | (Except.error (RError.api m), s1) =>
    ⟨Except.error (RError.api m), s1, pre ++ [CallKind.fetchCall]⟩

/-- `RenphoApi.get_measurements` (api.py lines 212-267) against an oracle
of network outcomes (one consumed per HTTP call, in order): with no truthy
token, raise when auto re-auth is disabled, otherwise login first; then the
fetch phase. -/
def get_measurements (s : Session) (o : Nat → NetOutcome) : RunOut :=
  if truthyStr s.token = false then
    if s.disable_auto_reauth then
      ⟨Except.error (RError.auth
        "No token available and auto re-auth is disabled. Please update your token."),
        s, []⟩
    else
      match login_step s (o 0) with
      | (Except.error e, s1) => ⟨Except.error e, s1, [CallKind.loginCall]⟩
      | (Except.ok _, s1) => fetch_phase s1 o 1 [CallKind.loginCall]
  else fetch_phase s o 0 []

/-! ### Host glue: token seeding at startup (`async_setup_entry`,
`__init__.py` lines 37-46) -/

/-- The persisted cache document as loaded from storage. `get_token_data`
produces `{token, user_id}` only, so documents written by this integration
never contain a `user_info` key. -/
structure CachedDoc where
  token : Option String
  user_id : Option Int
  user_info : Option UserInfo
deriving DecidableEq

/-- Python truthiness of `cached_data.get("user_info")`: `None` is falsy,
a dict value is truthy (documents persisted by this integration never
carry one, so it is `None` in practice). -/
def truthyOptUserInfo : Option UserInfo → Bool
  | none => false
  | some _ => true

/-- The token-seeding step of `async_setup_entry` (__init__.py lines
37-46): when a cached document with truthy `token` and `user_id` exists,
the source calls
`api.set_cached_token(cached_data["token"], cached_data["user_id"],
cached_data.get("user_info"))`. `set_cached_token`'s third parameter is
`disable_auto_reauth` (there is no `user_info` parameter), so the
`user_info` value is coerced to the flag by truthiness. Returns the
session and the `token_loaded` flag. -/
def host_seed (api : Session) (cached : Option CachedDoc) : Session × Bool :=
  match cached with
  | none => (api, false)
  | some cd =>
    if truthyStr cd.token && truthyInt cd.user_id then
      (set_cached_token api (cd.token.getD "") (cd.user_id.getD 0)
        (truthyOptUserInfo cd.user_info), true)
    else (api, false)

/-! ### Outcome classification helpers for the claims -/

/-- An outcome `_api_call` raises RenphoAuthError for: a parsed response
whose code is not 101 and which `_is_auth_error` classifies as an
authentication failure. -/
def authFailResp : NetOutcome → Bool
  | NetOutcome.netFail _ => false
  | NetOutcome.resp code msg _ => code != 101 && is_auth_error code msg

/-- A parsed response with the success code 101. -/
def code101 : NetOutcome → Bool
  | NetOutcome.netFail _ => false
  | NetOutcome.resp code _ _ => code == 101

/-- An outcome on which `_login` succeeds: a 101 response whose decrypted
document carries a `login` object with truthy token and id. -/
def goodLoginResp : NetOutcome → Bool
  | NetOutcome.resp code _ (some d) =>
    code == 101 && (truthyStr (d.login.getD emptyUserInfo).token &&
      truthyInt (d.login.getD emptyUserInfo).id)
  | _ => false

theorem api_call_authFail (s : Session) (o : NetOutcome)
    (h : authFailResp o = true) :
    api_call s o = (Except.error (RError.auth ("Authentication error: " ++ msgOf o)),
      { s with token_validated := false }) := by
  cases o with
  | netFail m => simp [authFailResp] at h
  | resp code msg dec =>
    simp only [authFailResp, Bool.and_eq_true, bne_iff_ne] at h
    simp [api_call, msgOf, h.1, h.2]

theorem api_call_code101 (s : Session) (o : NetOutcome) (h : code101 o = true) :
    api_call s o = (Except.ok ⟨101, msgOf o, decOf o⟩, s) := by
  cases o with
  | netFail m => simp [code101] at h
  | resp code msg dec =>
    simp only [code101, beq_iff_eq] at h
    subst h
    simp [api_call, msgOf, decOf]

theorem login_step_good (s : Session) (o : NetOutcome)
    (h : goodLoginResp o = true) :
    ∃ s2, login_step s o = (Except.ok true, s2) ∧
      s2.disable_auto_reauth = s.disable_auto_reauth ∧
      s2.token.isSome = true ∧ s2.user_id.isSome = true := by
  cases o with
  | netFail m => simp [goodLoginResp] at h
  | resp code msg dec =>
    cases dec with
    | none => simp [goodLoginResp] at h
    | some d =>
      simp only [goodLoginResp, Bool.and_eq_true, beq_iff_eq] at h
      obtain ⟨hc, htok, hid⟩ := h
      subst hc
      refine ⟨{ s with
        token := (d.login.getD emptyUserInfo).token,
        user_id := (d.login.getD emptyUserInfo).id,
        user_info := d.login.getD emptyUserInfo,
        token_validated := true }, ?_, rfl, ?_, ?_⟩
      · simp [login_step, api_call, htok, hid]
      · cases hcase : (d.login.getD emptyUserInfo).token with
        | none => rw [hcase] at htok; simp [truthyStr] at htok
        | some t => simp
      · cases hcase : (d.login.getD emptyUserInfo).id with
        | none => rw [hcase] at hid; simp [truthyInt] at hid
        | some n => simp

theorem api_call_netFail (s : Session) (m : String) :
    api_call s (NetOutcome.netFail m) =
      (Except.error (RError.api ("API call failed: " ++ m)), s) := rfl

theorem api_call_apiFail (s : Session) (code : Int) (msg : String)
    (dec : Option Decrypted) (hc : code ≠ 101) (ha : is_auth_error code msg = false) :
    api_call s (NetOutcome.resp code msg dec) =
      (Except.error (RError.api ("API error: " ++ msg)), s) := by
  simp [api_call, hc, ha]

/-- C4: for every session with a token present and auto-reauth disabled, an
auth-failure response to the measurement fetch makes `get_measurements`
raise RenphoAuthError immediately, with exactly one fetch call and zero
login calls. -/
theorem get_measurements_disabled_authfail (s : Session) (o : Nat → NetOutcome)
    (htok : truthyStr s.token = true) (hdis : s.disable_auto_reauth = true)
    (h0 : authFailResp (o 0) = true) :
    (get_measurements s o).result = Except.error (RError.auth
      "Token expired. Update token from mobile app to avoid logout.") ∧
    (get_measurements s o).calls = [CallKind.fetchCall] := by
  have hac := api_call_authFail s (o 0) h0
  constructor <;> simp [get_measurements, fetch_phase, htok, hac, hdis]

/-- C10 helper: the state after `_api_call` is the input state with at most
`_token_validated` cleared. -/
theorem api_call_state (s : Session) (o : NetOutcome) :
    (api_call s o).2 = s ∨ (api_call s o).2 = { s with token_validated := false } := by
  cases o with
  | netFail m => left; rfl
  | resp code msg dec =>
    by_cases hc : code = 101
    · left
      simp [api_call, hc]
    · by_cases ha : is_auth_error code msg = true
      · right
        simp [api_call, hc, ha]
      · left
        have ha2 : is_auth_error code msg = false := by
          rw [Bool.not_eq_true] at ha
          exact ha
        simp [api_call, hc, ha2]

/-- C10: with a token present and auto-reauth disabled, any error raised by
`get_measurements` leaves the session's token, user id, and profile
unchanged; only `_token_validated` may differ (it is cleared on an
auth-failure response). -/
theorem get_measurements_disabled_frame (s : Session) (o : Nat → NetOutcome)
    (htok : truthyStr s.token = true) (hdis : s.disable_auto_reauth = true)
    (e : RError) (hres : (get_measurements s o).result = Except.error e) :
    (get_measurements s o).state.token = s.token ∧
    (get_measurements s o).state.user_id = s.user_id ∧
    (get_measurements s o).state =
      { s with token_validated := (get_measurements s o).state.token_validated } := by
  cases ho : o 0 with
  | netFail m =>
    have hac : api_call s (o 0) =
        (Except.error (RError.api ("API call failed: " ++ m)), s) := by
      rw [ho]
      rfl
    refine ⟨?_, ?_, ?_⟩ <;> simp [get_measurements, fetch_phase, htok, hac]
  | resp code msg dec =>
    by_cases hc : code = 101
    · subst hc
      have hac : api_call s (o 0) = (Except.ok ⟨101, msg, dec⟩, s) := by
        rw [ho]
        simp [api_call]
      simp [get_measurements, fetch_phase, htok, hac] at hres
    · by_cases ha : is_auth_error code msg = true
      · have hac : api_call s (o 0) =
            (Except.error (RError.auth ("Authentication error: " ++ msg)),
              { s with token_validated := false }) := by
          rw [ho]
          simp [api_call, hc, ha]
        refine ⟨?_, ?_, ?_⟩ <;>
          simp [get_measurements, fetch_phase, htok, hac, hdis]
      · have ha2 : is_auth_error code msg = false := by
          rw [Bool.not_eq_true] at ha
          exact ha
        have hac : api_call s (o 0) =
            (Except.error (RError.api ("API error: " ++ msg)), s) := by
          rw [ho]
          exact api_call_apiFail s code msg dec hc ha2
        refine ⟨?_, ?_, ?_⟩ <;> simp [get_measurements, fetch_phase, htok, hac]

/-- C1: with a token present and auto-reauth enabled, an auth-failure
response to the first fetch makes `get_measurements` perform exactly one
login call followed by exactly one retry of the fetch (given the login
call itself succeeds), and an auth-failure response to the retry
propagates as RenphoAuthError with no third fetch and no second login. -/
theorem get_measurements_single_retry (s : Session) (o : Nat → NetOutcome)
    (htok : truthyStr s.token = true) (hre : s.disable_auto_reauth = false)
    (h0 : authFailResp (o 0) = true) (h1 : goodLoginResp (o 1) = true) :
    (get_measurements s o).calls =
      [CallKind.fetchCall, CallKind.loginCall, CallKind.fetchCall] ∧
    (authFailResp (o 2) = true →
      ∃ m, (get_measurements s o).result = Except.error (RError.auth m)) := by
  have hac := api_call_authFail s (o 0) h0
  obtain ⟨s2, hls, hdis2, -, -⟩ :=
    login_step_good { s with token_validated := false } (o 1) h1
  have hred : get_measurements s o = fetch_phase s o 0 [] := by
    unfold get_measurements
    rw [htok]
    simp
  simp only [hre] at hls
  rcases hretry : api_call s2 (o 2) with ⟨res2, s3⟩
  cases res2 with
  | ok r =>
    constructor
    · rw [hred]
      simp [fetch_phase, hac, hre, hls, hretry]
    · intro h2
      have := api_call_authFail s2 (o 2) h2
      rw [hretry] at this
      cases this
  | error e2 =>
    constructor
    · rw [hred]
      simp [fetch_phase, hac, hre, hls, hretry]
    · intro h2
      have h3 := api_call_authFail s2 (o 2) h2
      rw [hretry] at h3
      have he2 : e2 = RError.auth ("Authentication error: " ++ msgOf (o 2)) := by
        have := congrArg Prod.fst h3
        simpa using this
      refine ⟨"Authentication error: " ++ msgOf (o 2), ?_⟩
      rw [hred]
      simp [fetch_phase, hac, hre, hls, hretry, he2]

/-- Concrete session for the C6 counterexample: fresh client, no token,
auto-reauth enabled (the constructor state). -/
def c6State : Session := initSession "user@example.com" "pw"

/-- Concrete oracle for the C6 counterexample: every response has code
101; the first (consumed by the pre-fetch `_login`) carries a good login
document, the second is the measurement response. -/
def c6Oracle : Nat → NetOutcome := fun n =>
  if n = 0 then
    NetOutcome.resp 101 "OK"
      (some ⟨some ⟨some "T", some 42, none, none, none, none⟩, none, none⟩)
  else NetOutcome.resp 101 "OK" none

/-- C6 counterexample: a `get_measurements` invocation in which every API
response has code 101 and which nevertheless performs a login call (the
token was absent, so `_login` ran before the fetch). -/
theorem get_measurements_code101_login_cex :
    code101 (c6Oracle 0) = true ∧ code101 (c6Oracle 1) = true ∧
    (get_measurements c6State c6Oracle).calls =
      [CallKind.loginCall, CallKind.fetchCall] := by
  decide

/-- C6 amended: for every invocation of `get_measurements` with a token
present whose fetch response has code 101, no login call occurs (when the
token is absent, one login precedes the fetch regardless of the fetch's
response code). -/
theorem get_measurements_code101_no_login (s : Session) (o : Nat → NetOutcome)
    (htok : truthyStr s.token = true) (h0 : code101 (o 0) = true) :
    (get_measurements s o).calls = [CallKind.fetchCall] ∧
    (get_measurements s o).calls.count CallKind.loginCall = 0 := by
  have hac := api_call_code101 s (o 0) h0
  refine ⟨?_, ?_⟩ <;> simp [get_measurements, fetch_phase, htok, hac]

/-- Concrete fresh session for the C2 counterexample. -/
def c2State : Session := initSession "user@example.com" "pw"

/-- Concrete login outcome for the C2 counterexample: a decrypted login
object carrying a token but no id. -/
def c2Out : NetOutcome :=
  NetOutcome.resp 101 "OK"
    (some ⟨some ⟨some "T", none, none, none, none, none⟩, none, none⟩)

/-- C2 counterexample: `_login` on a response whose login object has a
token but no id raises, yet leaves the session holding a token without a
user id (the assignments on api.py lines 175-177 precede the check on line
180). -/
theorem login_partial_state_cex :
    (login_step c2State c2Out).1 =
      Except.error (RError.auth "Login response missing token or user ID") ∧
    (login_step c2State c2Out).2.token = some "T" ∧
    (login_step c2State c2Out).2.user_id = none := by
  decide

/-- C2 amended: the token/user-id pairing invariant holds initially, after
`set_cached_token`, and after a `_login` that returns successfully; and
`get_token_data` returns a document only when both are present. After a
`_login` that raises on a partial login object the invariant can fail. -/
theorem token_userid_invariant :
    (∀ email password, ((initSession email password).token.isSome ↔
      (initSession email password).user_id.isSome)) ∧
    (∀ s t u f, ((set_cached_token s t u f).token.isSome ↔
      (set_cached_token s t u f).user_id.isSome)) ∧
    (∀ s o s2, login_step s o = (Except.ok true, s2) →
      s2.token.isSome = true ∧ s2.user_id.isSome = true) ∧
    (∀ s d, get_token_data s = some d →
      s.token.isSome = true ∧ s.user_id.isSome = true) := by
  refine ⟨fun email password => by simp [initSession],
    fun s t u f => by simp [set_cached_token],
    fun s o s2 hok => ?_,
    fun s d hd => ?_⟩
  · cases o with
    | netFail m => simp [login_step, api_call] at hok
    | resp code msg dec =>
      by_cases hc : code = 101
      · subst hc
        cases dec with
        | none => simp [login_step, api_call] at hok
        | some dd =>
          simp only [login_step, api_call, if_neg (by omega : ¬(101 : Int) ≠ 101)] at hok
          by_cases hcond : (truthyStr (dd.login.getD emptyUserInfo).token &&
              truthyInt (dd.login.getD emptyUserInfo).id) = true
          · rw [if_pos hcond] at hok
            rw [Bool.and_eq_true] at hcond
            have hsnd := congrArg Prod.snd hok
            simp only [] at hsnd
            rw [← hsnd]
            constructor
            · show ((dd.login.getD emptyUserInfo).token).isSome = true
              cases hcase : (dd.login.getD emptyUserInfo).token with
              | none =>
                rw [hcase] at hcond
                simp [truthyStr] at hcond
              | some t => simp
            · show ((dd.login.getD emptyUserInfo).id).isSome = true
              cases hcase : (dd.login.getD emptyUserInfo).id with
              | none =>
                rw [hcase] at hcond
                simp [truthyInt] at hcond
              | some n => simp
          · rw [if_neg hcond] at hok
            have := congrArg Prod.fst hok
            simp at this
      · by_cases hia : is_auth_error code msg = true
        · simp [login_step, api_call, hc, hia] at hok
        · simp [login_step, api_call, hc, hia] at hok
  · unfold get_token_data at hd
    split at hd
    next h =>
      rw [Bool.and_eq_true] at h
      constructor
      · cases hcase : s.token with
        | none =>
          rw [hcase] at h
          simp [truthyStr] at h
        | some t => simp
      · cases hcase : s.user_id with
        | none =>
          rw [hcase] at h
          simp [truthyInt] at h
        | some n => simp
    next h => simp at hd

/-- Concrete session for the C5 counterexample: a cached empty-string
token (a present string value) with user id 42. -/
def c5State : Session :=
  set_cached_token (initSession "user@example.com" "pw") "" 42 true

/-- C5 counterexample: both fields are present (`is not None`), yet
`get_token_data` returns `None`, because the source tests Python
truthiness (`if self._token and self._user_id`), not presence. -/
theorem get_token_data_present_cex :
    c5State.token.isSome = true ∧ c5State.user_id.isSome = true ∧
    get_token_data c5State = none := by
  decide

/-- C5 amended: `get_token_data` returns `None` when either field is
missing, and returns exactly the current pair when both are present AND
truthy (token non-empty, user id non-zero); a present empty-string token
or zero user id also yields `None`. -/
theorem get_token_data_spec :
    (∀ s, (s.token = none ∨ s.user_id = none) → get_token_data s = none) ∧
    (∀ s t u, s.token = some t → s.user_id = some u → t ≠ "" → u ≠ 0 →
      get_token_data s = some ⟨t, u⟩) ∧
    (∀ s, (s.token = some "" ∨ s.user_id = some 0) → get_token_data s = none) := by
  refine ⟨fun s h => ?_, fun s t u ht hu hte hue => ?_, fun s h => ?_⟩
  · rcases h with h | h <;> simp [get_token_data, h, truthyStr, truthyInt]
  · simp [get_token_data, ht, hu, truthyStr, truthyInt, hte, hue]
  · rcases h with h | h <;> simp [get_token_data, h, truthyStr, truthyInt]

/-- Witness for the C5 amended theorem at a concrete truthy pair. -/
theorem get_token_data_spec_witness :
    get_token_data (set_cached_token (initSession "e" "p") "TOK" 42 true) =
      some ⟨"TOK", 42⟩ :=
  get_token_data_spec.2.1 (set_cached_token (initSession "e" "p") "TOK" 42 true)
    "TOK" 42 (by decide) (by decide) (by decide) (by decide)

/-- C9: in the derived record, `weight_lbs` is exactly
`round(weight_kg * 2.20462, 1)` when the kilogram weight is non-zero and
absent otherwise; at kg = 70 the conversion yields 154.3. -/
theorem buildRecord_weight_lbs :
    (∀ r ui, (buildRecord r ui).weight_lbs =
      (if (buildRecord r ui).weight_kg ≠ 0 then
        some (pyRound1 ((buildRecord r ui).weight_kg * (220462 / 100000 : ℚ)))
      else none)) ∧
    pyRound1 ((70 : ℚ) * (220462 / 100000 : ℚ)) = 1543 / 10 := by
  constructor
  · intro r ui
    rfl
  · unfold pyRound1 roundHalfEven
    norm_num

/-- Concrete cached document for the C3 bug: exactly the shape
`get_token_data` persists — token and user id, no `user_info` key. -/
def c3Doc : CachedDoc := ⟨some "T", some 42, none⟩

/-- Concrete oracle for the C3 bug: the fetch gets an auth failure, then a
login succeeds, then the retried fetch succeeds. -/
def c3Oracle : Nat → NetOutcome := fun n =>
  if n = 0 then NetOutcome.resp 403 "Forbidden" none
  else if n = 1 then
    NetOutcome.resp 101 "OK"
      (some ⟨some ⟨some "T2", some 42, none, none, none, none⟩, none, none⟩)
  else NetOutcome.resp 101 "OK" none

/-- C3: seeding from the persisted document leaves auto-reauth ENABLED,
contrary to the spec. `async_setup_entry` passes `cached_data.get("user_info")`
as `set_cached_token`'s third positional argument, which is
`disable_auto_reauth`; persisted documents carry no `user_info`, so the
flag receives `None` (falsy) and a later auth failure performs an automatic
re-login (one login call in the run below). -/
theorem host_seed_reauth_enabled_bug :
    (host_seed (initSession "user@example.com" "pw") (some c3Doc)).2 = true ∧
    (host_seed (initSession "user@example.com" "pw") (some c3Doc)).1.disable_auto_reauth
      = false ∧
    (get_measurements (host_seed (initSession "user@example.com" "pw") (some c3Doc)).1
      c3Oracle).calls.count CallKind.loginCall = 1 := by
  decide

/-- C8: on a successful response, decryption of the `data` field is
attempted only when the base64-decoded byte length is a whole number of
16-byte blocks; otherwise, and whenever base64 decoding or decryption
fails, no error is raised and the response carries no `decrypted` field
(`processData` is total and returns `none` in all those cases). -/
theorem api_call_decrypt_gated :
    (∀ d, decryption_attempted (some d) = true →
      ∃ bs, b64decodeStr d = some bs ∧ bs.length % 16 = 0) ∧
    (∀ d bs, b64decodeStr d = some bs → bs.length % 16 ≠ 0 →
      processData (some d) = none) ∧
    (∀ d, b64decodeStr d = none → processData (some d) = none) ∧
    (∀ d, aes_decrypt d = none → processData (some d) = none) := by
  refine ⟨fun d h => ?_, fun d bs hb h16 => ?_, fun d hb => ?_, fun d ha => ?_⟩
  · by_cases he : d = ""
    · rw [decryption_attempted, if_pos he] at h
      cases h
    · rw [decryption_attempted, if_neg he] at h
      cases hb : b64decodeStr d with
      | none => rw [hb] at h; cases h
      | some bs =>
        rw [hb] at h
        refine ⟨bs, rfl, ?_⟩
        simpa using h
  · by_cases he : d = ""
    · subst he
      have : b64decodeStr "" = some [] := rfl
      rw [this] at hb
      cases hb
      simp at h16
    · simp [processData, he, hb, h16]
  · by_cases he : d = ""
    · subst he
      have : b64decodeStr "" = some [] := rfl
      rw [this] at hb
      cases hb
    · simp [processData, he, hb]
  · by_cases he : d = ""
    · rw [processData, if_pos he]
    · cases hb : b64decodeStr d with
      | none => simp [processData, he, hb]
      | some bs =>
        by_cases h16 : bs.length % 16 = 0
        · simp [processData, he, hb, h16, ha]
        · simp [processData, he, hb, h16]

/-- Concrete base64 text for the C8 witness: 17 encoded bytes, not a
whole number of blocks. -/
def c8Data : String := b64encodeStr (List.replicate 17 65)

/-- Witness for C8: decryption of the 17-byte payload is skipped, the
response carries no decrypted field, and no error occurs. -/
theorem api_call_decrypt_gated_witness :
    processData (some c8Data) = none ∧ decryption_attempted (some c8Data) = false :=
  ⟨api_call_decrypt_gated.2.1 c8Data (List.replicate 17 65) (by decide) (by decide),
    by decide⟩

/-- Concrete session for the C1 witness: cached token, auto-reauth
enabled. -/
def w1State : Session :=
  set_cached_token (initSession "user@example.com" "pw") "TOK" 7 false

/-- Concrete oracle for the C1 witness: fetch gets 401, login succeeds,
retry gets 401. -/
def w1Oracle : Nat → NetOutcome := fun n =>
  if n = 0 then NetOutcome.resp 401 "Unauthorized" none
  else if n = 1 then
    NetOutcome.resp 101 "OK"
      (some ⟨some ⟨some "T2", some 7, none, none, none, none⟩, none, none⟩)
  else NetOutcome.resp 401 "Unauthorized" none

/-- Witness for C1. -/
theorem get_measurements_single_retry_witness :
    (get_measurements w1State w1Oracle).calls =
      [CallKind.fetchCall, CallKind.loginCall, CallKind.fetchCall] ∧
    (authFailResp (w1Oracle 2) = true →
      ∃ m, (get_measurements w1State w1Oracle).result =
        Except.error (RError.auth m)) :=
  get_measurements_single_retry w1State w1Oracle (by decide) (by decide)
    (by decide) (by decide)

/-- Concrete session for the C4 witness: cached token, auto-reauth
disabled. -/
def w4State : Session :=
  set_cached_token (initSession "user@example.com" "pw") "TOK" 7 true

/-- Concrete oracle for the C4 witness: every call gets 403. -/
def w4Oracle : Nat → NetOutcome := fun _ => NetOutcome.resp 403 "Forbidden" none

/-- Witness for C4. -/
theorem get_measurements_disabled_authfail_witness :
    (get_measurements w4State w4Oracle).result = Except.error (RError.auth
      "Token expired. Update token from mobile app to avoid logout.") ∧
    (get_measurements w4State w4Oracle).calls = [CallKind.fetchCall] :=
  get_measurements_disabled_authfail w4State w4Oracle (by decide) (by decide)
    (by decide)

/-- Concrete session for the C10 witness. -/
def w10State : Session :=
  set_cached_token (initSession "user@example.com" "pw") "TOK" 7 true

/-- Concrete oracle for the C10 witness: the fetch gets 403. -/
def w10Oracle : Nat → NetOutcome := fun _ => NetOutcome.resp 403 "Forbidden" none

/-- Witness for C10. -/
theorem get_measurements_disabled_frame_witness :
    (get_measurements w10State w10Oracle).state.token = w10State.token ∧
    (get_measurements w10State w10Oracle).state.user_id = w10State.user_id ∧
    (get_measurements w10State w10Oracle).state =
      { w10State with
        token_validated := (get_measurements w10State w10Oracle).state.token_validated } :=
  get_measurements_disabled_frame w10State w10Oracle (by decide) (by decide)
    (RError.auth "Token expired. Update token from mobile app to avoid logout.")
    (by decide)

/-- Concrete session for the C6 amended witness. -/
def w6State : Session :=
  set_cached_token (initSession "user@example.com" "pw") "TOK" 7 false

/-- Concrete oracle for the C6 amended witness: the fetch succeeds with
code 101. -/
def w6Oracle : Nat → NetOutcome := fun _ => NetOutcome.resp 101 "OK" none

/-- Witness for the C6 amended theorem. -/
theorem get_measurements_code101_no_login_witness :
    (get_measurements w6State w6Oracle).calls = [CallKind.fetchCall] ∧
    (get_measurements w6State w6Oracle).calls.count CallKind.loginCall = 0 :=
  get_measurements_code101_no_login w6State w6Oracle (by decide) (by decide)

/-- Concrete session for the C2 amended witness. -/
def w2State : Session := initSession "user@example.com" "pw"

/-- Concrete login outcome for the C2 amended witness: token and id both
present and truthy. -/
def w2Out : NetOutcome :=
  NetOutcome.resp 101 "OK"
    (some ⟨some ⟨some "T", some 9, none, none, none, none⟩, none, none⟩)

/-- Witness for the C2 amended theorem: after a successful login both
token and user id are present. -/
theorem token_userid_invariant_witness :
    (login_step w2State w2Out).2.token.isSome = true ∧
    (login_step w2State w2Out).2.user_id.isSome = true :=
  token_userid_invariant.2.2.1 w2State w2Out (login_step w2State w2Out).2 (by decide)
